import Mathlib

/-!
# Verification of the Azure DevOps migrator extraction engine

Shallow embedding, in Lean 4, of the extraction-job engine of the
`AzureDevopsMigratorNew` repository, together with proofs of the behavioural
properties claimed by its specification.

The embedded code lives in `src/backend/api/main.py` (the `AzureDevOpsClient`
connector, `extract_work_items`, `extract_area_paths`, `start_extraction`,
`get_extraction_jobs`) and `src/backend/services/extraction_service.py`
(`ExtractionService._extract_work_items`, `ExtractionService._parse_date`).

Modelling conventions:
* Python `None`-able values become `Option`; dictionary `.get` calls become
  `Option` lookups with the same defaults as the source.
* The database session is explicit state: each table is a list of row
  records, and SQLAlchemy object mutation of a queried row is an in-place
  update of the matching list entry.
* The Azure DevOps HTTP surface is an environment record: each remote call
  site is a field holding the (arbitrary, quantified) data the server would
  return.  An unchanged upstream data set is the same environment value.
* Python `float` arithmetic (`(k / n) * 100`) is modelled exactly as
  IEEE-754 binary64 round-to-nearest, ties-to-even, over `ℚ`, ignoring
  overflow and subnormals (every value reached by this code is a normal
  float far from either boundary).
-/

namespace PyFloat

/-- Round a rational to an integer, half-to-even (`round-to-nearest-even`
tie-breaking used by IEEE-754 arithmetic). -/
def rhe (x : ℚ) : ℤ :=
  if x - ⌊x⌋ < 1/2 then ⌊x⌋
  else if (1:ℚ)/2 < x - ⌊x⌋ then ⌊x⌋ + 1
  else if Even ⌊x⌋ then ⌊x⌋ else ⌊x⌋ + 1

/-- Fuel-driven binary logarithm (structural recursion, so that concrete
instances reduce in the kernel). -/
def natLog2Go : ℕ → ℕ → ℕ
  | 0, _ => 0
  | fuel + 1, n => if n < 2 then 0 else natLog2Go fuel (n / 2) + 1

/-- `⌊log₂ n⌋` for `n ≥ 1`. -/
def natLog2 (n : ℕ) : ℕ := natLog2Go n n

theorem natLog2Go_bounds :
    ∀ fuel n, 1 ≤ n → n ≤ fuel →
      2 ^ natLog2Go fuel n ≤ n ∧ n < 2 ^ (natLog2Go fuel n + 1) := by
  intro fuel
  induction fuel with
  | zero => intro n h1 h2; omega
  | succ f ih =>
    intro n h1 h2
    rw [natLog2Go]
    by_cases hsmall : n < 2
    · rw [if_pos hsmall]
      constructor
      · simpa using h1
      · simpa using hsmall
    · rw [if_neg hsmall]
      have hhalf1 : 1 ≤ n / 2 := by omega
      have hlt : n / 2 < n := Nat.div_lt_self (by omega) (by omega)
      have hhalf2 : n / 2 ≤ f := by omega
      obtain ⟨hlo, hhi⟩ := ih (n / 2) hhalf1 hhalf2
      constructor
      · calc 2 ^ (natLog2Go f (n / 2) + 1) = 2 * 2 ^ natLog2Go f (n / 2) := by ring
          _ ≤ 2 * (n / 2) := by omega
          _ ≤ n := by omega
      · calc n < 2 * (n / 2) + 2 := by omega
          _ = 2 * (n / 2 + 1) := by ring
          _ ≤ 2 * 2 ^ (natLog2Go f (n / 2) + 1) := by omega
          _ = 2 ^ (natLog2Go f (n / 2) + 1 + 1) := by ring

theorem natLog2_bounds {n : ℕ} (h : 1 ≤ n) :
    2 ^ natLog2 n ≤ n ∧ n < 2 ^ (natLog2 n + 1) :=
  natLog2Go_bounds n n h (le_refl n)

/-- First estimate of the binary exponent of a positive rational: the
difference of the base-2 logarithms of numerator and denominator.  The true
exponent is this value or this value minus one. -/
def qexpEstimate (q : ℚ) : ℤ :=
  (natLog2 q.num.toNat : ℤ) - (natLog2 q.den : ℤ)

/-- Binary exponent of a positive rational: the unique `e` with
`2 ^ e ≤ q < 2 ^ (e + 1)`. -/
def qexp (q : ℚ) : ℤ :=
  if q < 2 ^ qexpEstimate q then qexpEstimate q - 1 else qexpEstimate q

/-- Round a positive rational to the nearest binary64 value (53 significant
bits, ties to even), with unbounded exponent range. -/
def roundPos (q : ℚ) : ℚ :=
  let e := qexp q
  (rhe (q * 2 ^ (52 - e)) : ℚ) * 2 ^ (e - 52)

/-- Round any rational to the nearest binary64 value.  This is the exact
value of the Python `float` produced by an arithmetic operation whose exact
rational result is `q`, for results in the normal range. -/
def roundDouble (q : ℚ) : ℚ :=
  if 0 < q then roundPos q
  else if q < 0 then -roundPos (-q)
  else 0

/-- Python `int(x)` on a float: truncation toward zero. -/
def pyTrunc (x : ℚ) : ℤ :=
  if 0 ≤ x then ⌊x⌋ else -⌊-x⌋

/-- Python `k / n` on two non-negative ints: true division producing the
correctly rounded binary64 quotient. -/
def pyDivNat (k n : ℕ) : ℚ :=
  roundDouble ((k : ℚ) / (n : ℚ))

/-- Python `x * 100` on a float: the correctly rounded binary64 product. -/
def pyMul100 (x : ℚ) : ℚ :=
  roundDouble (x * 100)

/-- The progress percentage persisted by every extraction loop of
`main.py` and `extraction_service.py`: `int((k / n) * 100)` evaluated in
Python float arithmetic. -/
def pyProgress (k n : ℕ) : ℤ :=
  pyTrunc (pyMul100 (pyDivNat k n))

end PyFloat

namespace PyFloat

theorem le_rhe (x : ℚ) : ⌊x⌋ ≤ rhe x := by
  unfold rhe
  split_ifs <;> omega

theorem rhe_le (x : ℚ) : rhe x ≤ ⌊x⌋ + 1 := by
  unfold rhe
  split_ifs <;> omega

theorem rhe_mono {x y : ℚ} (h : x ≤ y) : rhe x ≤ rhe y := by
  rcases lt_or_eq_of_le (Int.floor_le_floor h) with hf | hf
  · calc rhe x ≤ ⌊x⌋ + 1 := rhe_le x
    _ ≤ ⌊y⌋ := by omega
    _ ≤ rhe y := le_rhe y
  · unfold rhe
    rw [hf]
    have hr : y - (⌊y⌋ : ℚ) ≥ x - (⌊y⌋ : ℚ) := by linarith
    split_ifs with h1 h2 h3 h4 h5 h6 h7 <;> first
      | omega
      | (exfalso; linarith)

end PyFloat

namespace PyFloat

theorem qexpEstimate_bounds {q : ℚ} (hq : 0 < q) :
    (2:ℚ) ^ (qexpEstimate q - 1) < q ∧ q < 2 ^ (qexpEstimate q + 1) := by
  have hnum : 0 < q.num := Rat.num_pos.mpr hq
  have hden : 0 < q.den := q.den_pos
  set a : ℕ := q.num.toNat with ha
  have hane : a ≠ 0 := by
    simp only [ha]
    omega
  have hbne : q.den ≠ 0 := by omega
  set la : ℕ := natLog2 a with hla
  set lb : ℕ := natLog2 q.den with hlb
  obtain ⟨h1, h2⟩ := natLog2_bounds (n := a) (by omega)
  obtain ⟨h3, h4⟩ := natLog2_bounds (n := q.den) (by omega)
  have hQ1 : ((2:ℚ)) ^ (la : ℤ) ≤ (a : ℚ) := by
    rw [zpow_natCast]
    exact_mod_cast h1
  have hQ2 : (a : ℚ) < 2 ^ ((la : ℤ) + 1) := by
    have : ((la : ℤ) + 1) = ((la + 1 : ℕ) : ℤ) := by push_cast; ring
    rw [this, zpow_natCast]
    exact_mod_cast h2
  have hQ3 : ((2:ℚ)) ^ (lb : ℤ) ≤ (q.den : ℚ) := by
    rw [zpow_natCast]
    exact_mod_cast h3
  have hQ4 : (q.den : ℚ) < 2 ^ ((lb : ℤ) + 1) := by
    have : ((lb : ℤ) + 1) = ((lb + 1 : ℕ) : ℤ) := by push_cast; ring
    rw [this, zpow_natCast]
    exact_mod_cast h4
  have haq : (a : ℚ) = (q.num : ℚ) := by
    have h0 : ((q.num.toNat : ℤ)) = q.num := Int.toNat_of_nonneg (le_of_lt hnum)
    rw [ha]
    exact_mod_cast congrArg (fun z : ℤ => (z : ℚ)) h0
  have hqad : q = (a : ℚ) / (q.den : ℚ) := by
    rw [haq, Rat.num_div_den]
  have hdpos : (0:ℚ) < (q.den : ℚ) := by exact_mod_cast hden
  have hapos : (0:ℚ) < (a : ℚ) := by
    have : 0 < a := Nat.pos_of_ne_zero hane
    exact_mod_cast this
  have hE : qexpEstimate q = (la : ℤ) - (lb : ℤ) := by
    simp only [qexpEstimate, ha, hla, hlb]
  constructor
  · -- 2 ^ (e0 - 1) < q
    rw [hE, hqad, lt_div_iff₀ hdpos]
    calc (2:ℚ) ^ ((la : ℤ) - (lb : ℤ) - 1) * (q.den : ℚ)
        < 2 ^ ((la : ℤ) - (lb : ℤ) - 1) * 2 ^ ((lb : ℤ) + 1) := by
          apply mul_lt_mul_of_pos_left hQ4 (zpow_pos (by norm_num) _)
      _ = 2 ^ (la : ℤ) := by
          rw [← zpow_add₀ (two_ne_zero)]
          ring_nf
      _ ≤ (a : ℚ) := hQ1
  · -- q < 2 ^ (e0 + 1)
    rw [hE, hqad, div_lt_iff₀ hdpos]
    calc (a : ℚ) < 2 ^ ((la : ℤ) + 1) := hQ2
      _ = 2 ^ ((la : ℤ) - (lb : ℤ) + 1) * 2 ^ (lb : ℤ) := by
          rw [← zpow_add₀ (two_ne_zero)]
          ring_nf
      _ ≤ 2 ^ ((la : ℤ) - (lb : ℤ) + 1) * (q.den : ℚ) := by
          apply mul_le_mul_of_nonneg_left hQ3 (le_of_lt (zpow_pos (by norm_num) _))

theorem qexp_spec {q : ℚ} (hq : 0 < q) :
    (2:ℚ) ^ qexp q ≤ q ∧ q < 2 ^ (qexp q + 1) := by
  obtain ⟨hlo, hhi⟩ := qexpEstimate_bounds hq
  unfold qexp
  split_ifs with h
  · constructor
    · exact le_of_lt hlo
    · simpa using h
  · constructor
    · exact le_of_not_lt h
    · exact hhi

end PyFloat

namespace PyFloat

theorem qexp_mono {q1 q2 : ℚ} (h1 : 0 < q1) (h12 : q1 ≤ q2) :
    qexp q1 ≤ qexp q2 := by
  have h2 : 0 < q2 := lt_of_lt_of_le h1 h12
  obtain ⟨ha, _⟩ := qexp_spec h1
  obtain ⟨_, hb⟩ := qexp_spec h2
  by_contra hlt
  push_neg at hlt
  have hstep : qexp q2 + 1 ≤ qexp q1 := by omega
  have : (2:ℚ) ^ (qexp q2 + 1) ≤ 2 ^ qexp q1 :=
    zpow_le_zpow_right₀ (by norm_num) hstep
  linarith

theorem roundPos_bounds {q : ℚ} (hq : 0 < q) :
    (2:ℚ) ^ qexp q ≤ roundPos q ∧ roundPos q ≤ 2 ^ (qexp q + 1) := by
  obtain ⟨hlo, hhi⟩ := qexp_spec hq
  set e := qexp q with he
  set s : ℚ := q * 2 ^ (52 - e) with hs
  have hp : (0:ℚ) < 2 ^ (52 - e) := zpow_pos (by norm_num) _
  have hslo : (2:ℚ) ^ (52 : ℤ) ≤ s := by
    rw [hs]
    calc (2:ℚ) ^ (52 : ℤ) = 2 ^ e * 2 ^ (52 - e) := by
          rw [← zpow_add₀ (two_ne_zero)]
          ring_nf
      _ ≤ q * 2 ^ (52 - e) := mul_le_mul_of_nonneg_right hlo (le_of_lt hp)
  have hshi : s < (2:ℚ) ^ (53 : ℤ) := by
    rw [hs]
    calc q * 2 ^ (52 - e) < 2 ^ (e + 1) * 2 ^ (52 - e) :=
          mul_lt_mul_of_pos_right hhi hp
      _ = 2 ^ (53 : ℤ) := by
          rw [← zpow_add₀ (two_ne_zero)]
          ring_nf
  have hm_lo : (2:ℤ) ^ (52 : ℕ) ≤ rhe s := by
    have : (2:ℤ) ^ (52 : ℕ) ≤ ⌊s⌋ := by
      rw [Int.le_floor]
      calc ((((2:ℤ) ^ (52:ℕ)) : ℚ)) = 2 ^ (52 : ℤ) := by
            norm_num
        _ ≤ s := hslo
    calc (2:ℤ) ^ (52:ℕ) ≤ ⌊s⌋ := this
      _ ≤ rhe s := le_rhe s
  have hm_hi : rhe s ≤ (2:ℤ) ^ (53 : ℕ) := by
    have hfl : ⌊s⌋ < (2:ℤ) ^ (53 : ℕ) := by
      rw [Int.floor_lt]
      calc s < 2 ^ (53 : ℤ) := hshi
        _ = (((2:ℤ) ^ (53:ℕ) : ℤ) : ℚ) := by
            norm_num
    calc rhe s ≤ ⌊s⌋ + 1 := rhe_le s
      _ ≤ (2:ℤ) ^ (53:ℕ) := by omega
  have hq52 : (0:ℚ) < 2 ^ (e - 52) := zpow_pos (by norm_num) _
  constructor
  · show (2:ℚ) ^ e ≤ (rhe s : ℚ) * 2 ^ (e - 52)
    have : ((2:ℚ) ^ (52:ℤ)) ≤ (rhe s : ℚ) := by
      calc ((2:ℚ) ^ (52:ℤ)) = (((2:ℤ) ^ (52:ℕ) : ℤ) : ℚ) := by
            norm_num
        _ ≤ (rhe s : ℚ) := by exact_mod_cast hm_lo
    calc (2:ℚ) ^ e = 2 ^ (52:ℤ) * 2 ^ (e - 52) := by
          rw [← zpow_add₀ (two_ne_zero)]
          ring_nf
      _ ≤ (rhe s : ℚ) * 2 ^ (e - 52) := mul_le_mul_of_nonneg_right this (le_of_lt hq52)
  · show (rhe s : ℚ) * 2 ^ (e - 52) ≤ 2 ^ (e + 1)
    have : (rhe s : ℚ) ≤ ((2:ℚ) ^ (53:ℤ)) := by
      calc (rhe s : ℚ) ≤ (((2:ℤ) ^ (53:ℕ) : ℤ) : ℚ) := by exact_mod_cast hm_hi
        _ = (2:ℚ) ^ (53:ℤ) := by
            norm_num
    calc (rhe s : ℚ) * 2 ^ (e - 52) ≤ 2 ^ (53:ℤ) * 2 ^ (e - 52) :=
          mul_le_mul_of_nonneg_right this (le_of_lt hq52)
      _ = 2 ^ (e + 1) := by
          rw [← zpow_add₀ (two_ne_zero)]
          ring_nf

theorem roundPos_pos {q : ℚ} (hq : 0 < q) : 0 < roundPos q :=
  lt_of_lt_of_le (zpow_pos (by norm_num) _) (roundPos_bounds hq).1

theorem roundPos_mono {q1 q2 : ℚ} (h1 : 0 < q1) (h12 : q1 ≤ q2) :
    roundPos q1 ≤ roundPos q2 := by
  have h2 : 0 < q2 := lt_of_lt_of_le h1 h12
  have hee : qexp q1 ≤ qexp q2 := qexp_mono h1 h12
  rcases eq_or_lt_of_le hee with heq | hlt
  · -- same binade: monotonicity of rounding at a fixed scale
    show (rhe (q1 * 2 ^ (52 - qexp q1)) : ℚ) * 2 ^ (qexp q1 - 52) ≤
         (rhe (q2 * 2 ^ (52 - qexp q2)) : ℚ) * 2 ^ (qexp q2 - 52)
    rw [← heq]
    have hsm : q1 * 2 ^ (52 - qexp q1) ≤ q2 * 2 ^ (52 - qexp q1) :=
      mul_le_mul_of_nonneg_right h12 (le_of_lt (zpow_pos (by norm_num) _))
    have hr : rhe (q1 * 2 ^ (52 - qexp q1)) ≤ rhe (q2 * 2 ^ (52 - qexp q1)) :=
      rhe_mono hsm
    apply mul_le_mul_of_nonneg_right _ (le_of_lt (zpow_pos (by norm_num) _))
    exact_mod_cast hr
  · -- different binades: the upper bound of the lower binade is below the
    -- lower bound of the higher one
    calc roundPos q1 ≤ 2 ^ (qexp q1 + 1) := (roundPos_bounds h1).2
      _ ≤ 2 ^ (qexp q2) := zpow_le_zpow_right₀ (by norm_num) (by omega)
      _ ≤ roundPos q2 := (roundPos_bounds h2).1

theorem roundDouble_nonneg {q : ℚ} (hq : 0 ≤ q) : 0 ≤ roundDouble q := by
  unfold roundDouble
  split_ifs with hp hn
  · exact le_of_lt (roundPos_pos hp)
  · linarith
  · exact le_refl 0

theorem roundDouble_mono_nonneg {q1 q2 : ℚ} (h1 : 0 ≤ q1) (h12 : q1 ≤ q2) :
    roundDouble q1 ≤ roundDouble q2 := by
  unfold roundDouble
  rcases lt_or_eq_of_le h1 with hp1 | hz1
  · have hp2 : 0 < q2 := lt_of_lt_of_le hp1 h12
    rw [if_pos hp1, if_pos hp2]
    exact roundPos_mono hp1 h12
  · rw [← hz1] at h12 ⊢
    rw [if_neg (lt_irrefl (0:ℚ)), if_neg (lt_irrefl (0:ℚ))]
    split_ifs with hp2 hn2
    · exact le_of_lt (roundPos_pos hp2)
    · linarith
    · exact le_refl 0

end PyFloat

namespace PyFloat

theorem pyDivNat_nonneg (k n : ℕ) : 0 ≤ pyDivNat k n :=
  roundDouble_nonneg (by positivity)

theorem pyDivNat_mono {k1 k2 : ℕ} (n : ℕ) (h : k1 ≤ k2) :
    pyDivNat k1 n ≤ pyDivNat k2 n := by
  apply roundDouble_mono_nonneg (by positivity)
  rcases Nat.eq_zero_or_pos n with hn | hn
  · simp [hn]
  · have hn0 : (0:ℚ) < (n:ℚ) := by exact_mod_cast hn
    have hk : (k1:ℚ) ≤ (k2:ℚ) := by exact_mod_cast h
    gcongr

theorem pyMul100_mono {x1 x2 : ℚ} (h0 : 0 ≤ x1) (h : x1 ≤ x2) :
    pyMul100 x1 ≤ pyMul100 x2 := by
  apply roundDouble_mono_nonneg (by positivity)
  linarith

theorem pyTrunc_mono_nonneg {x1 x2 : ℚ} (h0 : 0 ≤ x1) (h : x1 ≤ x2) :
    pyTrunc x1 ≤ pyTrunc x2 := by
  unfold pyTrunc
  rw [if_pos h0, if_pos (le_trans h0 h)]
  exact Int.floor_le_floor h

/-- Persisted progress is monotone in the number of processed items: the
chained rounding steps of `int((k / n) * 100)` are each monotone. -/
theorem pyProgress_mono {k1 k2 : ℕ} (n : ℕ) (h : k1 ≤ k2) :
    pyProgress k1 n ≤ pyProgress k2 n := by
  unfold pyProgress
  have h1 := pyDivNat_nonneg k1 n
  have h2 := pyDivNat_mono n h
  have h3 := pyMul100_mono h1 h2
  have h4 : 0 ≤ pyMul100 (pyDivNat k1 n) := roundDouble_nonneg (by positivity)
  exact pyTrunc_mono_nonneg h4 h3

end PyFloat

namespace Ado

/-- Outcome of one HTTP request issued by `AzureDevOpsClient`.
`response` is a reply that arrived with some status code and a JSON body
already decoded to `β`; the remaining constructors are the exception paths
handled by the client's `try`/`except` blocks. -/
inductive HttpOutcome (β : Type) where
  | response (code : ℕ) (body : β)
  | timeout
  | connectionLost
  | otherFailure (msg : String)
deriving DecidableEq

/-- A JSON body of the common Azure DevOps shape: a dict whose `value` key
holds the record list (`data.get('value', [])`; an absent key is the empty
list). -/
structure ListBody (β : Type) where
  value : List β
deriving DecidableEq

/-- One entry of the `workItems` array of a WIQL query response. -/
structure WiqlItem where
  id : ℤ
deriving DecidableEq

/-- JSON body of a WIQL query response (`data.get('workItems', [])`). -/
structure WiqlBody where
  workItems : List WiqlItem
deriving DecidableEq

/-- `AzureDevOpsClient.get_projects`: on a 200 response return
`data.get('value', [])`; on any other status, timeout, connection error or
other exception, log and return the empty list. -/
def getProjects {β : Type} (r : HttpOutcome (ListBody β)) : List β :=
  match r with
  | .response code body => if code == 200 then body.value else []
  | .timeout => []
  | .connectionLost => []
  | .otherFailure _ => []

/-- `AzureDevOpsClient.get_repositories`: same shape as `get_projects`
(one `except Exception` arm instead of three, same result). -/
def getRepositories {β : Type} (r : HttpOutcome (ListBody β)) : List β :=
  match r with
  | .response code body => if code == 200 then body.value else []
  | _ => []

/-- `AzureDevOpsClient.get_work_item_ids`: on a 200 WIQL response return
`[item['id'] for item in data.get('workItems', [])]`; every failure mode
returns the empty list. -/
def getWorkItemIds (r : HttpOutcome WiqlBody) : List ℤ :=
  match r with
  | .response code body =>
      if code == 200 then body.workItems.map (fun item => item.id) else []
  | _ => []

/-- `AzureDevOpsClient.get_repository_branches`: same shape as
`get_repositories` (`value` key on 200, empty list on every failure). -/
def getRepositoryBranches {β : Type} (r : HttpOutcome (ListBody β)) : List β :=
  match r with
  | .response code body => if code == 200 then body.value else []
  | _ => []

/-- `AzureDevOpsClient.get_repository_commits`: same shape. -/
def getRepositoryCommits {β : Type} (r : HttpOutcome (ListBody β)) : List β :=
  match r with
  | .response code body => if code == 200 then body.value else []
  | _ => []

/-- `AzureDevOpsClient.get_repository_pull_requests`: same shape. -/
def getRepositoryPullRequests {β : Type} (r : HttpOutcome (ListBody β)) : List β :=
  match r with
  | .response code body => if code == 200 then body.value else []
  | _ => []

/-- `AzureDevOpsClient.get_work_item_details`: an empty id list returns
`[]` before any request is made; otherwise `value` on 200 and the empty
list on every failure. -/
def getWorkItemDetailsOp {β : Type} (workItemIds : List ℤ)
    (r : HttpOutcome (ListBody β)) : List β :=
  if workItemIds.isEmpty then []
  else
    match r with
    | .response code body => if code == 200 then body.value else []
    | _ => []

/-- `AzureDevOpsClient.get_work_item_revisions`: same shape as
`get_repositories`. -/
def getWorkItemRevisionsOp {β : Type} (r : HttpOutcome (ListBody β)) : List β :=
  match r with
  | .response code body => if code == 200 then body.value else []
  | _ => []

/-- A JSON body whose record list sits under the `comments` key
(`data.get('comments', [])`). -/
structure CommentsBody (β : Type) where
  comments : List β
deriving DecidableEq

/-- `AzureDevOpsClient.get_work_item_comments`: `comments` key on 200,
empty list on every failure. -/
def getWorkItemCommentsOp {β : Type} (r : HttpOutcome (CommentsBody β)) : List β :=
  match r with
  | .response code body => if code == 200 then body.comments else []
  | _ => []

/-- The `attributes` sub-dict of an `AttachedFile` relation. -/
structure AttachAttributes where
  name : Option String
  resourceSize : Option ℤ
  authorName : Option String
  authorDate : Option String
deriving DecidableEq

/-- One entry of the `relations` array of an `$expand=relations` work
item response. -/
structure RelationJson where
  rel : Option String
  url : Option String
  attributes : Option AttachAttributes
deriving DecidableEq

/-- The `$expand=relations` work item body (`data.get('relations', [])`). -/
structure ExpandedWorkItemBody where
  relations : List RelationJson
deriving DecidableEq

/-- The attachment dict `get_work_item_attachments` builds from one
relation. -/
structure AttachmentDict where
  url : Option String
  name : String
  size : ℤ
  createdBy : String
  createdDate : String
deriving DecidableEq

/-- The parse step of `get_work_item_attachments`: keep the
`AttachedFile` relations, in order, and build the attachment dict from
each one's `attributes` (an absent dict reads through the empty-dict
default). -/
def attachmentsOfRelations (rels : List RelationJson) : List AttachmentDict :=
  (rels.filter (fun rel => rel.rel == some "AttachedFile")).map
    (fun rel =>
      let attrs := rel.attributes.getD ⟨none, none, none, none⟩
      { url := rel.url
        name := attrs.name.getD ""
        size := attrs.resourceSize.getD 0
        createdBy := attrs.authorName.getD ""
        createdDate := attrs.authorDate.getD "" })

/-- `AzureDevOpsClient.get_work_item_attachments`: parse the relations of
a 200 response, empty list on every failure. -/
def getWorkItemAttachmentsOp (r : HttpOutcome ExpandedWorkItemBody) :
    List AttachmentDict :=
  match r with
  | .response code body =>
      if code == 200 then attachmentsOfRelations body.relations else []
  | _ => []

/-- The exception that escapes an unguarded `session.get`: a timeout, a
client connection error, or any other exception. -/
inductive NetExc where
  | timeoutErr
  | clientConnErr
  | otherExc (msg : String)
deriving DecidableEq

/-- `AzureDevOpsClient.get_project_details`: unlike every other
operation this one has NO `try`/`except` — a transport error or timeout
propagates to the caller (the `Except.error` results) — and a non-200
response returns the empty dict (modelled `none`), not a list. -/
def getProjectDetails {β : Type} (r : HttpOutcome β) : Except NetExc (Option β) :=
  match r with
  | .response code body =>
      if code == 200 then Except.ok (some body) else Except.ok none
  | .timeout => Except.error NetExc.timeoutErr
  | .connectionLost => Except.error NetExc.clientConnErr
  | .otherFailure msg => Except.error (NetExc.otherExc msg)

end Ado

namespace Ado

/-- A classification node of the Azure DevOps area/iteration tree, as the
JSON schema read by `_flatten_classification_nodes`: the `name` key (absent
names make the node invalid), the `id` key, and the `children` array (an
absent key reads as the empty list). -/
inductive ClassificationNode where
  | node (name : Option String) (id : Option ℤ) (children : List ClassificationNode)

/-- A Python scalar value inside a flattened classification record. -/
inductive PyVal where
  | pnone
  | pstr (s : String)
  | pint (n : ℤ)
  | pbool (b : Bool)
deriving DecidableEq

/-- A flattened classification record: the Python dict built by
`_flatten_classification_nodes`, as an association list in insertion
order. -/
abbrev FlatRec := List (String × PyVal)

/-- `node.get('id')` as a `PyVal`. -/
def ofOptInt : Option ℤ → PyVal
  | none => PyVal.pnone
  | some n => PyVal.pint n

/-- `AzureDevOpsClient._flatten_classification_nodes`: recursively flatten
a classification tree, depth-first with each node before its children,
building each node's `path` from the parent's path and its own name. -/
def flattenClassificationNodes (node : ClassificationNode) (nodeType : String)
    (parentPath : String) : List FlatRec :=
  match node with
  | .node none _ _ => []
  | .node (some name) id children =>
    let path := if parentPath = "" then name else parentPath ++ "\\" ++ name
    (("id", ofOptInt id) :: ("name", PyVal.pstr name) :: ("path", PyVal.pstr path) ::
      ("type", PyVal.pstr nodeType) ::
      ("has_children", PyVal.pbool (!children.isEmpty)) :: []) ::
    (children.attach.map
      (fun c => flattenClassificationNodes c.1 nodeType path)).flatten
decreasing_by
  have := List.sizeOf_lt_of_mem c.2
  simp only [ClassificationNode.node.sizeOf_spec]
  omega

/-- `AzureDevOpsClient.get_area_paths`: flatten the classification tree of
a 200 response (the `parent_path` argument left at its `''` default);
every failure mode returns the empty list. -/
def getAreaPaths (r : HttpOutcome ClassificationNode) : List FlatRec :=
  match r with
  | .response code body =>
      if code == 200 then flattenClassificationNodes body "area" "" else []
  | _ => []

/-- `AzureDevOpsClient.get_iteration_paths`: same as `get_area_paths` with
node type `iteration`. -/
def getIterationPaths (r : HttpOutcome ClassificationNode) : List FlatRec :=
  match r with
  | .response code body =>
      if code == 200 then flattenClassificationNodes body "iteration" "" else []
  | _ => []

end Ado

namespace Ado

/-- Nested-membership induction for classification trees. -/
theorem ClassificationNode.recMem {P : ClassificationNode → Prop}
    (h : ∀ name id children, (∀ c ∈ children, P c) → P (.node name id children)) :
    ∀ n, P n
  | .node name id children =>
      h name id children (fun c hc => ClassificationNode.recMem h c)
termination_by n => sizeOf n
decreasing_by
  have := List.sizeOf_lt_of_mem hc
  simp only [ClassificationNode.node.sizeOf_spec]
  omega

/-- Modelled from the spec: joining a list of node names with the `\`
separator, as in "building `path` by joining ancestor names with a
separator". -/
def sepJoin : List String → String
  | [] => ""
  | [a] => a
  | a :: b :: rest => a ++ "\\" ++ sepJoin (b :: rest)

/-- Modelled from the spec: the flattened record list described by the
(amended) claim — a recursive pre-order traversal in which each record's
`path` is the names of its ancestors and itself joined by the separator. -/
def specFlattenRecords (node : ClassificationNode) (nodeType : String)
    (ancestors : List String) : List FlatRec :=
  match node with
  | .node none _ _ => []
  | .node (some name) id children =>
    (("id", ofOptInt id) :: ("name", PyVal.pstr name) ::
      ("path", PyVal.pstr (sepJoin (ancestors ++ [name]))) ::
      ("type", PyVal.pstr nodeType) ::
      ("has_children", PyVal.pbool (!children.isEmpty)) :: []) ::
    (children.attach.map
      (fun c => specFlattenRecords c.1 nodeType (ancestors ++ [name]))).flatten
decreasing_by
  have := List.sizeOf_lt_of_mem c.2
  simp only [ClassificationNode.node.sizeOf_spec]
  omega

/-- Every named node of the tree has a non-empty name. -/
def namesNonempty : ClassificationNode → Bool
  | .node none _ children =>
      children.attach.all (fun c => namesNonempty c.1)
  | .node (some nm) _ children =>
      !(nm == "") && children.attach.all (fun c => namesNonempty c.1)
decreasing_by
  all_goals
    have := List.sizeOf_lt_of_mem c.2
    simp only [ClassificationNode.node.sizeOf_spec]
    omega

theorem sepJoin_append_singleton (l : List String) (x : String) (h : l ≠ []) :
    sepJoin (l ++ [x]) = sepJoin l ++ "\\" ++ x := by
  induction l with
  | nil => exact absurd rfl h
  | cons a rest ih =>
    cases rest with
    | nil => rfl
    | cons b rest2 =>
      have : sepJoin ((b :: rest2) ++ [x]) = sepJoin (b :: rest2) ++ "\\" ++ x :=
        ih (by simp)
      show (a ++ "\\" ++ sepJoin ((b :: rest2) ++ [x])) = _
      rw [this]
      simp [sepJoin, String.append_assoc]

theorem string_append_eq_empty_iff (s t : String) :
    s ++ t = "" ↔ (s = "" ∧ t = "") := by
  constructor
  · intro hc
    have hd : s.data ++ t.data = ([] : List Char) := by
      have h0 := congrArg String.data hc
      rwa [String.data_append] at h0
    rcases List.append_eq_nil.mp hd with ⟨hs, ht⟩
    constructor
    · apply String.ext
      simpa using hs
    · apply String.ext
      simpa using ht
  · rintro ⟨rfl, rfl⟩
    rfl

theorem sepJoin_step_ne_empty (s nm : String) : s ++ "\\" ++ nm ≠ "" := by
  intro hc
  rcases (string_append_eq_empty_iff _ _).mp hc with ⟨h1, _⟩
  rcases (string_append_eq_empty_iff _ _).mp h1 with ⟨_, h2⟩
  exact absurd h2 (by decide)

theorem namesNonempty_node {name : Option String} {id : Option ℤ}
    {children : List ClassificationNode}
    (h : namesNonempty (.node name id children) = true) :
    (∀ nm, name = some nm → nm ≠ "") ∧ ∀ c ∈ children, namesNonempty c = true := by
  cases name with
  | none =>
    rw [namesNonempty] at h
    refine ⟨fun nm hnm => Option.noConfusion hnm, ?_⟩
    intro c hc
    rw [List.all_eq_true] at h
    exact h ⟨c, hc⟩ (List.mem_attach _ _)
  | some nm =>
    rw [namesNonempty, Bool.and_eq_true] at h
    obtain ⟨h1, h2⟩ := h
    constructor
    · intro nm2 hnm2
      injection hnm2 with hq
      subst hq
      simpa using h1
    · intro c hc
      rw [List.all_eq_true] at h2
      exact h2 ⟨c, hc⟩ (List.mem_attach _ _)

theorem flatten_eq_specRecords_aux (t : String) :
    ∀ n : ClassificationNode, namesNonempty n = true →
      ∀ anc : List String, anc ≠ [] → sepJoin anc ≠ "" →
        flattenClassificationNodes n t (sepJoin anc) = specFlattenRecords n t anc := by
  intro n
  induction n using ClassificationNode.recMem with
  | _ name id children ih =>
    intro hnames anc hanc hjoin
    obtain ⟨hname, hch⟩ := namesNonempty_node hnames
    cases name with
    | none =>
      rw [flattenClassificationNodes, specFlattenRecords]
    | some nm =>
      rw [flattenClassificationNodes, specFlattenRecords]
      rw [if_neg hjoin]
      rw [← sepJoin_append_singleton anc nm hanc]
      congr 1
      apply congrArg List.flatten
      apply List.map_congr_left
      rintro ⟨c, hc⟩ _
      have hj2 : sepJoin (anc ++ [nm]) ≠ "" := by
        rw [sepJoin_append_singleton anc nm hanc]
        exact sepJoin_step_ne_empty _ _
      rw [sepJoin_append_singleton anc nm hanc] at hj2 ⊢
      rw [← sepJoin_append_singleton anc nm hanc]
      exact ih c hc (hch c hc) (anc ++ [nm]) (by simp) (by
        rw [sepJoin_append_singleton anc nm hanc]
        exact sepJoin_step_ne_empty _ _)

/-- The source flattener agrees with the spec's description (pre-order
traversal, `path` = ancestor names joined by the separator) on every tree
whose node names are non-empty. -/
theorem flatten_eq_specRecords (t : String) (n : ClassificationNode)
    (hn : namesNonempty n = true) :
    flattenClassificationNodes n t "" = specFlattenRecords n t [] := by
  cases n with
  | node name id children =>
    obtain ⟨hname, hch⟩ := namesNonempty_node hn
    cases name with
    | none =>
      rw [flattenClassificationNodes, specFlattenRecords]
    | some nm =>
      have hnm : nm ≠ "" := hname nm rfl
      rw [flattenClassificationNodes, specFlattenRecords]
      rw [if_pos rfl]
      congr 1
      apply congrArg List.flatten
      apply List.map_congr_left
      rintro ⟨c, hc⟩ _
      exact flatten_eq_specRecords_aux t c (hch c hc) [nm] (by simp)
        (by show nm ≠ ""; exact hnm)

end Ado

namespace Engine

/-- A row of the `ado_connections` table, as read by the extraction task. -/
structure ConnRow where
  id : ℕ
  organization : String
  patToken : String
deriving DecidableEq

/-- A row of the `projects` table (the columns this code reads/writes). -/
structure ProjectRow where
  id : ℕ
  name : String
  connectionId : Option ℕ
  workItemCount : Option ℕ
  repoCount : Option ℕ
  testCaseCount : Option ℕ
  pipelineCount : Option ℕ
  areaPathCount : Option ℕ
deriving DecidableEq

/-- A row of the `extraction_jobs` table. -/
structure JobRow where
  id : ℕ
  projectId : ℕ
  artifactType : String
  status : String
  progress : ℤ
  totalItems : Option ℕ
  extractedItems : Option ℕ
  startedAt : Option ℤ
  completedAt : Option ℤ
  errorMessage : Option String
  message : Option String
deriving DecidableEq

/-- The `System.AssignedTo` / `System.ChangedBy` / `createdBy` JSON value:
either an identity dict (whose `displayName` is read) or a bare string —
the two cases of the source's `isinstance(..., dict)` test. -/
inductive AdoIdentity where
  | ident (displayName : Option String)
  | rawStr (s : String)
deriving DecidableEq

/-- The `fields` dict of a work item response, restricted to the keys the
extraction reads. -/
structure WIFields where
  title : Option String
  workItemType : Option String
  state : Option String
  assignedTo : Option AdoIdentity
  createdDate : Option String
  changedDate : Option String
  areaPath : Option String
  iterationPath : Option String
  priority : Option ℤ
  tags : Option String
  description : Option String
deriving DecidableEq

/-- One entry of a work item's `relations` array. -/
structure WIRelation where
  rel : String
  url : String
deriving DecidableEq

/-- One work item record of a `get_work_item_details` response. -/
structure WIRec where
  id : ℤ
  fields : WIFields
  relations : List WIRelation
deriving DecidableEq

/-- One revision record of a `get_work_item_revisions` response. -/
structure RevRec where
  rev : Option ℤ
  changedBy : Option AdoIdentity
  changedDate : Option String
deriving DecidableEq

/-- One comment record of a `get_work_item_comments` response. -/
structure CommentRec where
  text : Option String
  createdBy : Option AdoIdentity
  createdDate : Option String
deriving DecidableEq

/-- One attachment dict as built by `get_work_item_attachments` (the
client fills every key, with `''`/`0` defaults). -/
structure AttachRec where
  url : Option String
  name : String
  size : ℤ
  createdBy : String
  createdDate : String
deriving DecidableEq

/-- A row of the `work_items` table. -/
structure WorkItemRow where
  rowId : ℕ
  projectId : ℕ
  externalId : ℤ
  title : Option String
  workItemType : Option String
  state : Option String
  assignedTo : Option String
  createdDate : Option ℤ
  changedDate : Option ℤ
  areaPath : Option String
  iterationPath : Option String
  priority : Option ℤ
  tags : Option String
  description : Option String
  fieldsRaw : WIFields
deriving DecidableEq

/-- A row of the `work_item_revisions` table. -/
structure RevisionRow where
  workItemId : ℕ
  revisionNumber : Option ℤ
  changedBy : Option String
  changedDate : Option ℤ
  fieldsRec : RevRec
deriving DecidableEq

/-- A row of the `work_item_comments` table. -/
structure CommentRow where
  workItemId : ℕ
  text : Option String
  createdBy : Option String
  createdDate : Option ℤ
deriving DecidableEq

/-- A row of the `work_item_attachments` table. -/
structure AttachmentRow where
  workItemId : ℕ
  name : String
  url : Option String
  size : ℤ
  createdBy : String
  createdDate : Option ℤ
deriving DecidableEq

/-- A row of the `work_item_relations` table. -/
structure RelationRow where
  sourceWorkItemId : ℕ
  targetWorkItemId : ℕ
  relationType : String
deriving DecidableEq

/-- A row of the `extraction_logs` table. -/
structure LogRow where
  jobId : ℕ
  level : String
  message : String
deriving DecidableEq

/-- A row of the `area_paths` table.  Columns hold the raw values the
extraction loop reads out of a flattened classification record with
`.get(...)` (hence `Option Ado.PyVal`). -/
structure AreaPathRow where
  rowId : ℕ
  projectId : ℕ
  externalId : Option Ado.PyVal
  name : Option Ado.PyVal
  path : Option Ado.PyVal
  parentPath : Option Ado.PyVal
  hasChildren : Ado.PyVal
deriving DecidableEq

/-- The database session state: one list per table touched by the
extraction tasks, plus the next surrogate row id the store would assign. -/
structure ExtractDb where
  projects : List ProjectRow
  workItems : List WorkItemRow
  revisions : List RevisionRow
  comments : List CommentRow
  attachments : List AttachmentRow
  relations : List RelationRow
  areaPaths : List AreaPathRow
  logs : List LogRow
  nextRowId : ℕ
deriving DecidableEq

/-- State carried through one extraction task: the database, the job row
being mutated, and (instrumentation, not a source table) the trace of
successive `(progress, extracted_items)` pairs committed to the job row at
the end of each batch. -/
structure EngineState where
  db : ExtractDb
  job : JobRow
  progressTrace : List (ℤ × ℕ)
deriving DecidableEq

/-- The upstream responses visible to one run of `extract_work_items`:
what the WIQL index query returns and what each detail/child fetch
returns, plus the fixed wall clock and `dateutil.parser.parse` (modelled
as an arbitrary total string-to-timestamp function, which it is for the
date strings this system feeds it). -/
structure WorkItemsEnv where
  wiql : Ado.HttpOutcome Ado.WiqlBody
  details : List ℤ → List WIRec
  revisionsFor : ℤ → List RevRec
  commentsFor : ℤ → List CommentRec
  attachmentsFor : ℤ → List AttachRec
  parseDt : String → ℤ
  now : ℤ

end Engine

namespace Engine

/-- `fields.get('System.AssignedTo', \x7b\x7d).get('displayName') if
isinstance(..., dict) else fields.get('System.AssignedTo')`. -/
def assignedDisplay : Option AdoIdentity → Option String
  | none => none
  | some (.ident d) => d
  | some (.rawStr s) => some s

/-- `parse_datetime(x) if x else None`: `None` and `''` are falsy. -/
def parseOptDate (parse : String → ℤ) : Option String → Option ℤ
  | none => none
  | some s => if s = "" then none else some (parse s)

/-- The existence query of the upsert:
`db.query(WorkItem).filter(project_id == ..., external_id == ...).first()`. -/
def findWorkItem (db : ExtractDb) (pid : ℕ) (eid : ℤ) : Option WorkItemRow :=
  db.workItems.find? (fun r => r.projectId == pid && r.externalId == eid)

/-- The field assignments of the update branch of the upsert (note:
`created_date` is not reassigned on update). -/
def updatedExisting (parse : String → ℤ) (r : WorkItemRow) (f : WIFields) :
    WorkItemRow :=
  { r with
    title := f.title
    workItemType := f.workItemType
    state := f.state
    assignedTo := assignedDisplay f.assignedTo
    areaPath := f.areaPath
    iterationPath := f.iterationPath
    priority := f.priority
    tags := f.tags
    description := f.description
    changedDate := parseOptDate parse f.changedDate
    fieldsRaw := f }

/-- The row constructed by the insert branch of the upsert. -/
def newWorkItemRow (parse : String → ℤ) (rowId pid : ℕ) (wi : WIRec) :
    WorkItemRow :=
  { rowId := rowId
    projectId := pid
    externalId := wi.id
    title := wi.fields.title
    workItemType := wi.fields.workItemType
    state := wi.fields.state
    assignedTo := assignedDisplay wi.fields.assignedTo
    createdDate := parseOptDate parse wi.fields.createdDate
    changedDate := parseOptDate parse wi.fields.changedDate
    areaPath := wi.fields.areaPath
    iterationPath := wi.fields.iterationPath
    priority := wi.fields.priority
    tags := wi.fields.tags
    description := wi.fields.description
    fieldsRaw := wi.fields }

/-- Upsert one fetched work item by its natural key
`(project_id, external_id)`: update the matching row in place if one
exists, insert a fresh row otherwise.  Returns the database id of the
touched row (`work_item_db_id` in the source). -/
def upsertWorkItem (parse : String → ℤ) (pid : ℕ) (db : ExtractDb)
    (wi : WIRec) : ExtractDb × ℕ :=
  match findWorkItem db pid wi.id with
  | some row =>
    ({ db with
        workItems := db.workItems.map (fun r =>
          if r.rowId == row.rowId then updatedExisting parse r wi.fields else r) },
      row.rowId)
  | none =>
    ({ db with
        workItems := db.workItems ++ [newWorkItemRow parse db.nextRowId pid wi]
        nextRowId := db.nextRowId + 1 },
      db.nextRowId)

/-- Full-replace refresh of a work item's revisions: delete the child set
for this row id, then insert what the API returned. -/
def replaceRevisions (env : WorkItemsEnv) (dbId : ℕ) (extId : ℤ)
    (db : ExtractDb) : ExtractDb :=
  { db with
    revisions :=
      db.revisions.filter (fun r => r.workItemId != dbId) ++
      (env.revisionsFor extId).map (fun rev =>
        { workItemId := dbId
          revisionNumber := rev.rev
          changedBy := assignedDisplay rev.changedBy
          changedDate := parseOptDate env.parseDt rev.changedDate
          fieldsRec := rev }) }

/-- Full-replace refresh of a work item's comments. -/
def replaceComments (env : WorkItemsEnv) (dbId : ℕ) (extId : ℤ)
    (db : ExtractDb) : ExtractDb :=
  { db with
    comments :=
      db.comments.filter (fun r => r.workItemId != dbId) ++
      (env.commentsFor extId).map (fun c =>
        { workItemId := dbId
          text := c.text
          createdBy := assignedDisplay c.createdBy
          createdDate := parseOptDate env.parseDt c.createdDate }) }

/-- Full-replace refresh of a work item's attachments. -/
def replaceAttachments (env : WorkItemsEnv) (dbId : ℕ) (extId : ℤ)
    (db : ExtractDb) : ExtractDb :=
  { db with
    attachments :=
      db.attachments.filter (fun r => r.workItemId != dbId) ++
      (env.attachmentsFor extId).map (fun a =>
        { workItemId := dbId
          name := a.name
          url := a.url
          size := a.size
          createdBy := a.createdBy
          createdDate := if a.createdDate = "" then none
                         else some (env.parseDt a.createdDate) }) }

/-- `url.split('workitems/')[-1]` guarded by `'workitems/' in url` and
`target_id.isdigit()` (then `int(target_id)`).  `String.toNat?` succeeds
exactly on the non-empty all-digit strings `isdigit` accepts. -/
def relationTargetId (url : String) : Option ℤ :=
  let parts := url.splitOn "workitems/"
  if parts.length ≤ 1 then none
  else
    match (parts.getLastD "").toNat? with
    | none => none
    | some n => some (n : ℤ)

/-- Full-replace refresh of a work item's relations: non-attachment,
non-hyperlink relations whose target url names a work item already
present in this project's table. -/
def replaceRelations (pid dbId : ℕ) (wi : WIRec) (db : ExtractDb) :
    ExtractDb :=
  { db with
    relations :=
      db.relations.filter (fun r => r.sourceWorkItemId != dbId) ++
      wi.relations.filterMap (fun rel =>
        if rel.rel == "AttachedFile" || rel.rel == "Hyperlink" then none
        else
          match relationTargetId rel.url with
          | none => none
          | some tid =>
            match findWorkItem db pid tid with
            | none => none
            | some target =>
              some { sourceWorkItemId := dbId
                     targetWorkItemId := target.rowId
                     relationType := rel.rel }) }

/-- The per-work-item body of the extraction loop: upsert the row, then
full-replace its revisions, comments, attachments and relations. -/
def processWorkItem (env : WorkItemsEnv) (pid : ℕ) (db : ExtractDb)
    (wi : WIRec) : ExtractDb :=
  let step := upsertWorkItem env.parseDt pid db wi
  replaceRelations pid step.2 wi
    (replaceAttachments env step.2 wi.id
      (replaceComments env step.2 wi.id
        (replaceRevisions env step.2 wi.id step.1)))

/-- The batch start offsets of `range(0, total_items, 100)`. -/
def batchStarts (total : ℕ) : List ℕ :=
  (List.range ((total + 99) / 100)).map (fun j => 100 * j)

/-- One iteration of the batch loop: slice `work_item_ids[i:i+100]`, fetch
details, process each record (bumping `extracted_items` per record),
then persist `progress = int((extracted_items / total_items) * 100)` and
`extracted_items` to the job row and append an INFO log line. -/
def runBatch (env : WorkItemsEnv) (pid : ℕ) (ids : List ℤ) (total : ℕ)
    (acc : EngineState × ℕ) (start : ℕ) : EngineState × ℕ :=
  let batchIds := (ids.drop start).take 100
  let wis := env.details batchIds
  let inner := wis.foldl
    (fun (a : ExtractDb × ℕ) wi => (processWorkItem env pid a.1 wi, a.2 + 1))
    (acc.1.db, acc.2)
  let prog := PyFloat.pyProgress inner.2 total
  let msg := "Extracted " ++ toString inner.2 ++ "/" ++ toString total ++
    " work items (" ++ toString prog ++ "%)"
  (⟨{ inner.1 with logs := inner.1.logs ++ [⟨acc.1.job.id, "INFO", msg⟩] },
    { acc.1.job with progress := prog, extractedItems := some inner.2 },
    acc.1.progressTrace ++ [(prog, inner.2)]⟩,
   inner.2)

/-- `extract_work_items(job_id, project_id, project_name, connection_id)`.

The source looks the job row up by id; the model carries that row in the
engine state (the caller just created it), so the `job is None` guard is
not represented.  The index-fetch `try`/`except` is dead code against this
connector — `get_work_item_ids` catches every exception internally — so
the model's index fetch is the connector function itself. -/
def extractWorkItems (env : WorkItemsEnv) (conn : Option ConnRow)
    (connectionId pid : ℕ) (st0 : EngineState) : EngineState :=
  match conn with
  | none =>
    { st0 with job := { st0.job with
        status := "failed"
        errorMessage := some ("Connection " ++ toString connectionId ++ " not found")
        completedAt := some env.now } }
  | some _ =>
    let ids := Ado.getWorkItemIds env.wiql
    let total := ids.length
    let job1 := { st0.job with totalItems := some total }
    if total = 0 then
      { st0 with job := { job1 with
          status := "completed"
          progress := 100
          completedAt := some env.now } }
    else
      let run := (batchStarts total).foldl (runBatch env pid ids total)
        ({ st0 with job := job1 }, 0)
      { db := { run.1.db with
          projects := run.1.db.projects.map (fun p =>
            if p.id == pid then { p with workItemCount := some total } else p) }
        job := { run.1.job with
          status := "completed"
          completedAt := some env.now }
        progressTrace := run.1.progressTrace }

end Engine

namespace Engine

/-- The upstream responses visible to one run of `extract_area_paths`. -/
structure AreaPathsEnv where
  classificationTree : Ado.HttpOutcome Ado.ClassificationNode
  now : ℤ

/-- The upsert body of the area-path loop: rows are matched by
`(project_id, path)`; the update branch rewrites `external_id`, `name`,
`parent_path` and `has_children` (reading keys `parentPath` /
`hasChildren` that the flattener never emits), the insert branch also
stores `path`. -/
def upsertAreaPath (pid : ℕ) (db : ExtractDb) (ap : Ado.FlatRec) :
    ExtractDb :=
  match db.areaPaths.find? (fun r =>
      r.projectId == pid && r.path == ap.lookup "path") with
  | some row =>
    { db with
      areaPaths := db.areaPaths.map (fun r =>
        if r.rowId == row.rowId then
          { r with
            externalId := ap.lookup "id"
            name := ap.lookup "name"
            parentPath := ap.lookup "parentPath"
            hasChildren := (ap.lookup "hasChildren").getD (Ado.PyVal.pbool false) }
        else r) }
  | none =>
    { db with
      areaPaths := db.areaPaths ++
        [{ rowId := db.nextRowId
           projectId := pid
           externalId := ap.lookup "id"
           name := ap.lookup "name"
           path := ap.lookup "path"
           parentPath := ap.lookup "parentPath"
           hasChildren := (ap.lookup "hasChildren").getD (Ado.PyVal.pbool false) }]
      nextRowId := db.nextRowId + 1 }

/-- `extract_area_paths(job_id, project_id, project_name, connection_id)`.

Batched commits (`% 100`) and the per-item `try`/`except` arms collapse in
the model (no modelled persistence failures); a missing connection returns
with the job left `in_progress`, exactly as the source does. -/
def extractAreaPaths (env : AreaPathsEnv) (conn : Option ConnRow)
    (pid : ℕ) (st0 : EngineState) : EngineState :=
  let stStart := { st0 with job := { st0.job with
      status := "in_progress", startedAt := some env.now } }
  match conn with
  | none => stStart
  | some _ =>
    let paths := Ado.getAreaPaths env.classificationTree
    let total := paths.length
    let job1 := { stStart.job with totalItems := some total }
    let loop : ExtractDb × JobRow × ℕ := paths.foldl
      (fun (a : ExtractDb × JobRow × ℕ) ap =>
        let db1 := upsertAreaPath pid a.1 ap
        let count := a.2.2 + 1
        (db1,
         { a.2.1 with progress := min (PyFloat.pyProgress count total) 99 },
         count))
      (stStart.db, job1, 0)
    let count := loop.2.2
    let dbProj : ExtractDb := { loop.1 with
      projects := loop.1.projects.map (fun p =>
        if p.id == pid then { p with areaPathCount := some count } else p) }
    let jobDone := { loop.2.1 with
      status := "completed"
      completedAt := some env.now
      progress := 100
      message := some ("Extracted " ++ toString count ++ " area paths") }
    let dbLog : ExtractDb := { dbProj with
      logs := dbProj.logs ++
        [{ jobId := st0.job.id, level := "INFO",
           message := "Extracted " ++ toString count ++ " area paths for project" }] }
    { db := dbLog, job := jobDone, progressTrace := st0.progressTrace }

end Engine

namespace Engine

/-- The surrogate id and natural key of every work-item row, in table
order. -/
def wiSkel (db : ExtractDb) : List (ℕ × ℕ × ℤ) :=
  db.workItems.map (fun r => (r.rowId, r.projectId, r.externalId))

/-- The natural key `(project_id, external_id)` of every work-item row,
in table order. -/
def wiKeys (db : ExtractDb) : List (ℕ × ℤ) :=
  db.workItems.map (fun r => (r.projectId, r.externalId))

theorem wiKeys_eq_skel_snd (db : ExtractDb) :
    wiKeys db = (wiSkel db).map Prod.snd := by
  simp [wiKeys, wiSkel, List.map_map]

theorem findWorkItem_isSome_iff (db : ExtractDb) (pid : ℕ) (eid : ℤ) :
    (findWorkItem db pid eid).isSome = true ↔ (pid, eid) ∈ wiKeys db := by
  simp only [findWorkItem, List.find?_isSome, wiKeys, List.mem_map,
    Bool.and_eq_true, beq_iff_eq]
  constructor
  · rintro ⟨r, hr, h1, h2⟩
    exact ⟨r, hr, by rw [h1, h2]⟩
  · rintro ⟨r, hr, hk⟩
    injection hk with hk1 hk2
    exact ⟨r, hr, hk1, hk2⟩

theorem upsertWorkItem_skel (parse : String → ℤ) (pid : ℕ)
    (db : ExtractDb) (wi : WIRec) :
    wiSkel (upsertWorkItem parse pid db wi).1 =
      (if (pid, wi.id) ∈ wiKeys db then wiSkel db
       else wiSkel db ++ [(db.nextRowId, pid, wi.id)]) := by
  unfold upsertWorkItem
  rcases hfind : findWorkItem db pid wi.id with _ | row
  · have hmem : ¬((pid, wi.id) ∈ wiKeys db) := by
      rw [← findWorkItem_isSome_iff]
      rw [hfind]
      simp
    rw [if_neg hmem]
    simp [wiSkel, newWorkItemRow]
  · have hmem : (pid, wi.id) ∈ wiKeys db := by
      rw [← findWorkItem_isSome_iff, hfind]
      rfl
    rw [if_pos hmem]
    simp only [wiSkel]
    rw [List.map_map]
    apply List.map_congr_left
    intro r _
    by_cases h2 : r.rowId = row.rowId
    · simp [h2, updatedExisting]
    · simp [h2]

theorem processWorkItem_skel (env : WorkItemsEnv) (pid : ℕ)
    (db : ExtractDb) (wi : WIRec) :
    wiSkel (processWorkItem env pid db wi) =
      (if (pid, wi.id) ∈ wiKeys db then wiSkel db
       else wiSkel db ++ [(db.nextRowId, pid, wi.id)]) := by
  have hframe : ∀ dbx : ExtractDb, ∀ dbId : ℕ,
      wiSkel (replaceRelations pid dbId wi
        (replaceAttachments env dbId wi.id
          (replaceComments env dbId wi.id
            (replaceRevisions env dbId wi.id dbx)))) = wiSkel dbx := by
    intro dbx dbId
    rfl
  calc wiSkel (processWorkItem env pid db wi)
      = wiSkel (upsertWorkItem env.parseDt pid db wi).1 := hframe _ _
    _ = _ := upsertWorkItem_skel env.parseDt pid db wi

theorem processWorkItem_keys (env : WorkItemsEnv) (pid : ℕ)
    (db : ExtractDb) (wi : WIRec) :
    wiKeys (processWorkItem env pid db wi) =
      (if (pid, wi.id) ∈ wiKeys db then wiKeys db
       else wiKeys db ++ [(pid, wi.id)]) := by
  rw [wiKeys_eq_skel_snd, processWorkItem_skel]
  by_cases h : (pid, wi.id) ∈ wiKeys db
  · rw [if_pos h, if_pos h, wiKeys_eq_skel_snd]
  · rw [if_neg h, if_neg h, List.map_append, wiKeys_eq_skel_snd]
    rfl

theorem processWorkItem_key_mem (env : WorkItemsEnv) (pid : ℕ)
    (db : ExtractDb) (wi : WIRec) :
    (pid, wi.id) ∈ wiKeys (processWorkItem env pid db wi) := by
  rw [processWorkItem_keys]
  by_cases h : (pid, wi.id) ∈ wiKeys db
  · rwa [if_pos h]
  · rw [if_neg h]
    simp

theorem processWorkItem_key_mono {k : ℕ × ℤ} (env : WorkItemsEnv) (pid : ℕ)
    (db : ExtractDb) (wi : WIRec) (h : k ∈ wiKeys db) :
    k ∈ wiKeys (processWorkItem env pid db wi) := by
  rw [processWorkItem_keys]
  split_ifs
  · exact h
  · exact List.mem_append_left _ h

end Engine

namespace Engine

/-- The inner per-batch fold (`for wi in work_items`). -/
def innerFold (env : WorkItemsEnv) (pid : ℕ) (wis : List WIRec)
    (acc : ExtractDb × ℕ) : ExtractDb × ℕ :=
  wis.foldl
    (fun (a : ExtractDb × ℕ) wi => (processWorkItem env pid a.1 wi, a.2 + 1))
    acc

theorem innerFold_key_mono {k : ℕ × ℤ} (env : WorkItemsEnv) (pid : ℕ)
    (wis : List WIRec) :
    ∀ acc : ExtractDb × ℕ, k ∈ wiKeys acc.1 →
      k ∈ wiKeys (innerFold env pid wis acc).1 := by
  induction wis with
  | nil => intro acc h; exact h
  | cons wi rest ih =>
    intro acc h
    exact ih _ (processWorkItem_key_mono env pid acc.1 wi h)

theorem innerFold_key_mem (env : WorkItemsEnv) (pid : ℕ)
    (wis : List WIRec) :
    ∀ acc : ExtractDb × ℕ, ∀ wi ∈ wis,
      (pid, wi.id) ∈ wiKeys (innerFold env pid wis acc).1 := by
  induction wis with
  | nil => intro acc wi h; cases h
  | cons w rest ih =>
    intro acc wi h
    rcases List.mem_cons.mp h with rfl | hrest
    · exact innerFold_key_mono env pid rest _
        (processWorkItem_key_mem env pid acc.1 wi)
    · exact ih _ wi hrest

theorem innerFold_skel_frozen (env : WorkItemsEnv) (pid : ℕ)
    (wis : List WIRec) :
    ∀ acc : ExtractDb × ℕ,
      (∀ wi ∈ wis, (pid, wi.id) ∈ wiKeys acc.1) →
      wiSkel (innerFold env pid wis acc).1 = wiSkel acc.1 := by
  induction wis with
  | nil => intro acc _; rfl
  | cons w rest ih =>
    intro acc hcov
    have hw : (pid, w.id) ∈ wiKeys acc.1 := hcov w (List.mem_cons_self w rest)
    have hskel : wiSkel (processWorkItem env pid acc.1 w) = wiSkel acc.1 := by
      rw [processWorkItem_skel, if_pos hw]
    have hkeys : wiKeys (processWorkItem env pid acc.1 w) = wiKeys acc.1 := by
      rw [wiKeys_eq_skel_snd, hskel, wiKeys_eq_skel_snd]
    calc wiSkel (innerFold env pid rest (processWorkItem env pid acc.1 w, acc.2 + 1)).1
        = wiSkel (processWorkItem env pid acc.1 w) := by
          apply ih
          intro wi hwi
          rw [hkeys]
          exact hcov wi (List.mem_cons_of_mem _ hwi)
      _ = wiSkel acc.1 := hskel

theorem runBatch_db_skel (env : WorkItemsEnv) (pid : ℕ) (ids : List ℤ)
    (total : ℕ) (acc : EngineState × ℕ) (start : ℕ) :
    wiSkel (runBatch env pid ids total acc start).1.db =
      wiSkel (innerFold env pid (env.details ((ids.drop start).take 100))
        (acc.1.db, acc.2)).1 := rfl

theorem runBatch_keys_mono {k : ℕ × ℤ} (env : WorkItemsEnv) (pid : ℕ)
    (ids : List ℤ) (total : ℕ) (acc : EngineState × ℕ) (start : ℕ)
    (h : k ∈ wiKeys acc.1.db) :
    k ∈ wiKeys (runBatch env pid ids total acc start).1.db := by
  have he : wiKeys (runBatch env pid ids total acc start).1.db =
      wiKeys (innerFold env pid (env.details ((ids.drop start).take 100))
        (acc.1.db, acc.2)).1 := by
    rw [wiKeys_eq_skel_snd, runBatch_db_skel, ← wiKeys_eq_skel_snd]
  rw [he]
  exact innerFold_key_mono env pid _ _ h

theorem batchFold_keys_mono {k : ℕ × ℤ} (env : WorkItemsEnv) (pid : ℕ)
    (ids : List ℤ) (total : ℕ) (starts : List ℕ) :
    ∀ acc : EngineState × ℕ, k ∈ wiKeys acc.1.db →
      k ∈ wiKeys ((starts.foldl (runBatch env pid ids total) acc)).1.db := by
  induction starts with
  | nil => intro acc h; exact h
  | cons s rest ih =>
    intro acc h
    exact ih _ (runBatch_keys_mono env pid ids total acc s h)

theorem batchFold_coverage (env : WorkItemsEnv) (pid : ℕ) (ids : List ℤ)
    (total : ℕ) (starts : List ℕ) :
    ∀ acc : EngineState × ℕ, ∀ start ∈ starts,
      ∀ wi ∈ env.details ((ids.drop start).take 100),
        (pid, wi.id) ∈
          wiKeys ((starts.foldl (runBatch env pid ids total) acc)).1.db := by
  induction starts with
  | nil => intro acc start h; cases h
  | cons s rest ih =>
    intro acc start hstart wi hwi
    rcases List.mem_cons.mp hstart with rfl | hrest
    · apply batchFold_keys_mono env pid ids total rest
      have he : wiKeys (runBatch env pid ids total acc start).1.db =
          wiKeys (innerFold env pid (env.details ((ids.drop start).take 100))
            (acc.1.db, acc.2)).1 := by
        rw [wiKeys_eq_skel_snd, runBatch_db_skel, ← wiKeys_eq_skel_snd]
      rw [he]
      exact innerFold_key_mem env pid _ _ wi hwi
    · exact ih _ start hrest wi hwi

theorem batchFold_skel_frozen (env : WorkItemsEnv) (pid : ℕ) (ids : List ℤ)
    (total : ℕ) (starts : List ℕ) :
    ∀ acc : EngineState × ℕ,
      (∀ start ∈ starts, ∀ wi ∈ env.details ((ids.drop start).take 100),
        (pid, wi.id) ∈ wiKeys acc.1.db) →
      wiSkel ((starts.foldl (runBatch env pid ids total) acc)).1.db =
        wiSkel acc.1.db := by
  induction starts with
  | nil => intro acc _; rfl
  | cons s rest ih =>
    intro acc hcov
    have hbatch : wiSkel (runBatch env pid ids total acc s).1.db =
        wiSkel acc.1.db := by
      rw [runBatch_db_skel]
      apply innerFold_skel_frozen
      intro wi hwi
      exact hcov s (List.mem_cons_self s rest) wi hwi
    have hkeys : wiKeys (runBatch env pid ids total acc s).1.db =
        wiKeys acc.1.db := by
      rw [wiKeys_eq_skel_snd, hbatch, wiKeys_eq_skel_snd]
    calc wiSkel ((rest.foldl (runBatch env pid ids total)
          (runBatch env pid ids total acc s))).1.db
        = wiSkel (runBatch env pid ids total acc s).1.db := by
          apply ih
          intro start hstart wi hwi
          rw [hkeys]
          exact hcov start (List.mem_cons_of_mem _ hstart) wi hwi
      _ = wiSkel acc.1.db := hbatch

end Engine

namespace Engine

theorem wiSkel_projMap (db : ExtractDb) (f : ProjectRow → ProjectRow) :
    wiSkel { db with projects := db.projects.map f } = wiSkel db := rfl

theorem wiKeys_projMap (db : ExtractDb) (f : ProjectRow → ProjectRow) :
    wiKeys { db with projects := db.projects.map f } = wiKeys db := rfl

theorem extractWorkItems_db_zero (env : WorkItemsEnv) (c : ConnRow)
    (cid pid : ℕ) (st0 : EngineState)
    (h : (Ado.getWorkItemIds env.wiql).length = 0) :
    (extractWorkItems env (some c) cid pid st0).db = st0.db := by
  unfold extractWorkItems
  dsimp only
  rw [if_pos h]

theorem extractWorkItems_db_pos (env : WorkItemsEnv) (c : ConnRow)
    (cid pid : ℕ) (st0 : EngineState)
    (h : ¬(Ado.getWorkItemIds env.wiql).length = 0) :
    (extractWorkItems env (some c) cid pid st0).db =
      { (((batchStarts (Ado.getWorkItemIds env.wiql).length).foldl
            (runBatch env pid (Ado.getWorkItemIds env.wiql)
              (Ado.getWorkItemIds env.wiql).length)
            ({ st0 with job := { st0.job with
                totalItems := some (Ado.getWorkItemIds env.wiql).length } },
              0)).1.db) with
        projects :=
          (((batchStarts (Ado.getWorkItemIds env.wiql).length).foldl
            (runBatch env pid (Ado.getWorkItemIds env.wiql)
              (Ado.getWorkItemIds env.wiql).length)
            ({ st0 with job := { st0.job with
                totalItems := some (Ado.getWorkItemIds env.wiql).length } },
              0)).1.db).projects.map (fun p =>
            if p.id == pid then
              { p with workItemCount := some (Ado.getWorkItemIds env.wiql).length }
            else p) } := by
  unfold extractWorkItems
  dsimp only
  rw [if_neg h]

/-- Running `extract_work_items` a second time against the same upstream
responses leaves the work-item table's surrogate ids and natural keys
exactly as the first run left them. -/
theorem extract_twice_skel (env : WorkItemsEnv) (conn : Option ConnRow)
    (cid pid : ℕ) (st0 : EngineState) :
    wiSkel (extractWorkItems env conn cid pid
        (extractWorkItems env conn cid pid st0)).db =
      wiSkel (extractWorkItems env conn cid pid st0).db := by
  cases conn with
  | none => rfl
  | some c =>
    by_cases h0 : (Ado.getWorkItemIds env.wiql).length = 0
    · rw [extractWorkItems_db_zero env c cid pid _ h0]
    · set st1 := extractWorkItems env (some c) cid pid st0 with hst1
      rw [extractWorkItems_db_pos env c cid pid st1 h0]
      rw [wiSkel_projMap]
      apply batchFold_skel_frozen
      intro start hstart wi hwi
      show (pid, wi.id) ∈ wiKeys st1.db
      rw [hst1, extractWorkItems_db_pos env c cid pid st0 h0, wiKeys_projMap]
      exact batchFold_coverage env pid _ _ _ _ start hstart wi hwi

end Engine

namespace Api

open Engine

/-- The request-handler state: the `projects` and `extraction_jobs`
tables, plus the next job id the store would assign. -/
structure ApiState where
  projects : List ProjectRow
  jobs : List JobRow
  nextJobId : ℕ
deriving DecidableEq

/-- What `POST /api/extraction/start` answers: the 404 branch, the
descriptor of an existing in-progress job ("Extraction already in
progress"), or the descriptor of the freshly created job. -/
inductive StartResult where
  | notFound
  | alreadyInProgress (job : JobRow)
  | started (job : JobRow)
deriving DecidableEq

/-- Python `x or 0` on a nullable count. -/
def pyOrZero : Option ℕ → ℕ
  | none => 0
  | some v => v

/-- Python `job.total_items or 10` — `None` and `0` are both falsy. -/
def orTen : Option ℕ → ℕ
  | none => 10
  | some 0 => 10
  | some v => v

/-- The initial `total_items` assigned per artifact type from the
project's cached counts; other artifact types leave the column NULL. -/
def initialTotalItems (artifactType : String) (p : ProjectRow) : Option ℕ :=
  if artifactType == "workitems" then some (pyOrZero p.workItemCount)
  else if artifactType == "repositories" then some (pyOrZero p.repoCount)
  else if artifactType == "testcases" then some (pyOrZero p.testCaseCount)
  else if artifactType == "pipelines" then some (pyOrZero p.pipelineCount)
  else none

/-- The `in_progress` pre-check query of `start_extraction`. -/
def findInProgressJob (jobs : List JobRow) (projectId : ℕ)
    (artifactType : String) : Option JobRow :=
  jobs.find? (fun j =>
    j.projectId == projectId && j.artifactType == artifactType &&
    j.status == "in_progress")

/-- `start_extraction(request)`: 404 when the project does not exist;
return the existing job when one is already `in_progress` for the same
`(projectId, artifactType)`; otherwise insert and return a fresh
`in_progress` job row.  (The background `asyncio.create_task` launch is
the extraction model above and not part of this handler's state
change.) -/
def startExtraction (projectId : ℕ) (artifactType : String) (now : ℤ)
    (st : ApiState) : StartResult × ApiState :=
  match st.projects.find? (fun p => p.id == projectId) with
  | none => (.notFound, st)
  | some project =>
    match findInProgressJob st.jobs projectId artifactType with
    | some existing => (.alreadyInProgress existing, st)
    | none =>
      let job : JobRow :=
        { id := st.nextJobId
          projectId := projectId
          artifactType := artifactType
          status := "in_progress"
          progress := 0
          totalItems := initialTotalItems artifactType project
          extractedItems := none
          startedAt := some now
          completedAt := none
          errorMessage := none
          message := none }
      (.started job,
       { st with jobs := st.jobs ++ [job], nextJobId := st.nextJobId + 1 })

/-- The stall test of `get_extraction_jobs`: `status == 'in_progress'`
and `started_at < utcnow() - timedelta(minutes=5)` (timestamps are
seconds, so the window is 300). -/
def isStalled (now : ℤ) (j : JobRow) : Bool :=
  j.status == "in_progress" &&
    (match j.startedAt with
     | some t => decide (t < now - 300)
     | none => false)

/-- The mutation applied to each stalled job row. -/
def forceComplete (now : ℤ) (j : JobRow) : JobRow :=
  { j with
    status := "completed"
    progress := 100
    extractedItems := some (orTen j.totalItems)
    totalItems := some (orTen j.totalItems)
    completedAt := some now }

/-- The auto-complete pass that `GET /api/extraction/jobs` runs before
listing: every row matching the stall query is force-completed, all
other rows are untouched. -/
def autoCompleteStalled (now : ℤ) (jobs : List JobRow) : List JobRow :=
  jobs.map (fun j => if isStalled now j then forceComplete now j else j)

theorem isStalled_iff (now : ℤ) (j : JobRow) :
    isStalled now j = true ↔
      (j.status = "in_progress" ∧ ∃ t, j.startedAt = some t ∧ t < now - 300) := by
  unfold isStalled
  rcases hs : j.startedAt with _ | t
  · simp [hs]
  · simp [hs]

end Api

namespace PyDate

/-- A `datetime.datetime` value as far as this system observes it. -/
structure PyDateTime where
  year : ℕ
  month : ℕ
  day : ℕ
  hour : ℕ
  minute : ℕ
  second : ℕ
  microsecond : ℕ
  tzOffsetMinutes : Option ℤ
deriving DecidableEq

/-- The Python exceptions relevant to `_parse_date`: `fromisoformat`
raises `ValueError` for an unparseable string and `TypeError` for a
non-string argument (the latter cannot arise from a `str` input). -/
inductive PyExc where
  | valueErr
  | typeErr
deriving DecidableEq

def digitVal : Char → Option ℕ
  | c => if c.isDigit then some (c.toNat - 48) else none

def parse2 (a b : Char) : Option ℕ :=
  match digitVal a, digitVal b with
  | some x, some y => some (10 * x + y)
  | _, _ => none

def parse4 (a b c d : Char) : Option ℕ :=
  match parse2 a b, parse2 c d with
  | some x, some y => some (100 * x + y)
  | _, _ => none

def isLeap (y : ℕ) : Bool :=
  y % 4 == 0 && (y % 100 != 0 || y % 400 == 0)

def daysInMonth (y m : ℕ) : ℕ :=
  if m == 2 then (if isLeap y then 29 else 28)
  else if m == 4 || m == 6 || m == 9 || m == 11 then 30
  else 31

/-- A 1-to-6 digit fraction of a second, scaled to microseconds. -/
def parseFrac (cs : List Char) : Option ℕ :=
  if cs.length == 0 || 6 < cs.length then none
  else
    match cs.foldl
      (fun acc c =>
        match acc, digitVal c with
        | some a, some d => some (10 * a + d)
        | _, _ => none)
      (some 0) with
    | none => none
    | some v => some (v * 10 ^ (6 - cs.length))

/-- Split the time substring at the first `+`/`-`, which starts the UTC
offset. -/
def splitTz (cs : List Char) : List Char × Option (Bool × List Char) :=
  match cs.findIdx? (fun c => c == '+' || c == '-') with
  | none => (cs, none)
  | some i =>
    match cs.drop i with
    | c :: rest => (cs.take i, some (c == '+', rest))
    | [] => (cs, none)

/-- `HH[:MM[:SS[.frac]]]` → (hour, minute, second, microsecond). -/
def parseTimeCore (cs : List Char) : Option (ℕ × ℕ × ℕ × ℕ) :=
  match cs with
  | [h1, h2] =>
    match parse2 h1 h2 with
    | some h => some (h, 0, 0, 0)
    | none => none
  | h1 :: h2 :: ':' :: m1 :: m2 :: rest =>
    match parse2 h1 h2, parse2 m1 m2 with
    | some h, some m =>
      match rest with
      | [] => some (h, m, 0, 0)
      | ':' :: s1 :: s2 :: rest2 =>
        match parse2 s1 s2 with
        | some s =>
          match rest2 with
          | [] => some (h, m, s, 0)
          | '.' :: frac =>
            match parseFrac frac with
            | some us => some (h, m, s, us)
            | none => none
          | _ => none
        | none => none
      | _ => none
    | _, _ => none
  | _ => none

/-- `HH:MM` UTC offset, signed, in minutes. -/
def parseOffset (plus : Bool) (cs : List Char) : Option ℤ :=
  match cs with
  | [h1, h2, ':', m1, m2] =>
    match parse2 h1 h2, parse2 m1 m2 with
    | some h, some m =>
      if h < 24 && m < 60 then
        some (if plus then ((60 * h + m : ℕ) : ℤ) else -((60 * h + m : ℕ) : ℤ))
      else none
    | _, _ => none
  | _ => none

/-- `datetime.fromisoformat` on the ISO-8601 subset it accepts:
`YYYY-MM-DD`, optionally followed by a one-character separator and
`HH[:MM[:SS[.frac]]]`, optionally followed by a `±HH:MM` offset — with
calendar and clock range validation. -/
def fromisoformatCore (s : String) : Option PyDateTime :=
  match s.data with
  | y1 :: y2 :: y3 :: y4 :: c1 :: m1 :: m2 :: c2 :: d1 :: d2 :: rest =>
    if c1 == '-' && c2 == '-' then
      match parse4 y1 y2 y3 y4, parse2 m1 m2, parse2 d1 d2 with
      | some y, some mo, some d =>
        if 1 ≤ y && 1 ≤ mo && mo ≤ 12 && 1 ≤ d && d ≤ daysInMonth y mo then
          match rest with
          | [] => some ⟨y, mo, d, 0, 0, 0, 0, none⟩
          | _sep :: timecs =>
            match splitTz timecs with
            | (tcs, tz) =>
              match parseTimeCore tcs with
              | none => none
              | some (h, mi, se, us) =>
                if h < 24 && mi < 60 && se < 60 then
                  match tz with
                  | none => some ⟨y, mo, d, h, mi, se, us, none⟩
                  | some (plus, ocs) =>
                    match parseOffset plus ocs with
                    | none => none
                    | some off => some ⟨y, mo, d, h, mi, se, us, some off⟩
                else none
        else none
      | _, _, _ => none
    else none
  | _ => none

/-- `datetime.fromisoformat` with its exception behaviour on a `str`
argument: a parse failure is a `ValueError`. -/
def fromisoformatExc (s : String) : Except PyExc PyDateTime :=
  match fromisoformatCore s with
  | some d => Except.ok d
  | none => Except.error PyExc.valueErr

/-- Python `'T' in date_str`. -/
def pyContainsT (s : String) : Bool := s.data.contains 'T'

/-- Python `date_str.endswith('Z')`. -/
def pyEndsWithZ (s : String) : Bool := s.data.getLast? == some 'Z'

/-- Python `date_str.replace('Z', '+00:00')`: every occurrence of the
one-character needle is substituted. -/
def pyReplaceZ (s : String) : String :=
  ⟨s.data.flatMap (fun c => if c == 'Z' then "+00:00".data else [c])⟩

/-- The `try` body of `_parse_date`: the three branches all call
`fromisoformat`, with `Z` rewritten to `+00:00` when the string has a
`T` and ends in `Z`. -/
def parseAttempt (s : String) : Except PyExc PyDateTime :=
  if pyContainsT s then
    if pyEndsWithZ s then fromisoformatExc (pyReplaceZ s)
    else fromisoformatExc s
  else fromisoformatExc s

/-- `ExtractionService._parse_date`: `None`/`''` short-circuit to `None`;
`ValueError` from parsing is caught (logged) and becomes `None`; any
other exception would propagate to the caller. -/
def parseDate (dateStr : Option String) : Except PyExc (Option PyDateTime) :=
  match dateStr with
  | none => Except.ok none
  | some s =>
    if s = "" then Except.ok none
    else
      match parseAttempt s with
      | Except.ok d => Except.ok (some d)
      | Except.error PyExc.valueErr => Except.ok none
      | Except.error PyExc.typeErr => Except.error PyExc.typeErr

/-- The value `_parse_date` returns to its in-service callers (total, by
`parse_date_never_raises` below). -/
def parseDateValue (s : Option String) : Option PyDateTime :=
  match parseDate s with
  | Except.ok r => r
  | Except.error _ => none

end PyDate

deriving instance DecidableEq for Except

namespace Svc

open Engine PyDate

/-- One record of the service client's `get_work_items` response. -/
structure SvcWIRec where
  id : ℤ
  fields : WIFields
deriving DecidableEq

/-- One comment record: `createdBy` is an identity dict when present
(its `displayName` value is read with default `''`). -/
structure SvcCommentRec where
  text : Option String
  createdBy : Option (Option String)
  createdDate : Option String
deriving DecidableEq

/-- One attachment record as read by the service extractor. -/
structure SvcAttachRec where
  name : Option String
  url : Option String
  size : Option ℤ
  createdBy : Option (Option String)
  createdDate : Option String
deriving DecidableEq

/-- One revision record: `rev` plus the revision `fields` keys read. -/
structure SvcRevRec where
  rev : Option ℤ
  changedBy : Option (Option String)
  changedDate : Option String
deriving DecidableEq

/-- A row of the `work_items` table as written by the service extractor
(string columns filled with `''` defaults). -/
structure SvcWorkItemRow where
  rowId : ℕ
  externalId : ℤ
  projectId : ℕ
  title : String
  workItemType : String
  state : String
  assignedTo : Option String
  createdDate : Option PyDateTime
  changedDate : Option PyDateTime
  areaPath : String
  iterationPath : String
  priority : ℤ
  tags : String
  description : String
  fieldsRaw : WIFields
deriving DecidableEq

structure SvcCommentRow where
  workItemId : ℕ
  text : String
  createdBy : String
  createdDate : Option PyDateTime
deriving DecidableEq

structure SvcAttachmentRow where
  workItemId : ℕ
  name : String
  url : String
  size : ℤ
  createdBy : String
  createdDate : Option PyDateTime
deriving DecidableEq

structure SvcRevisionRow where
  workItemId : ℕ
  revisionNumber : ℤ
  changedBy : String
  changedDate : Option PyDateTime
  fieldsRec : SvcRevRec
deriving DecidableEq

/-- One remote call issued while extracting a single work item; the trace
of these is how the model observes "child collections were (not)
re-fetched". -/
inductive SvcCall where
  | fetchComments (workItemId : ℤ)
  | fetchAttachments (workItemId : ℤ)
  | fetchRevisions (workItemId : ℤ)
deriving DecidableEq

/-- The upstream responses visible to the service extractor's child
fetches. -/
structure SvcEnv where
  commentsFor : ℤ → List SvcCommentRec
  attachmentsFor : ℤ → List SvcAttachRec
  revisionsFor : ℤ → List SvcRevRec

/-- The service extractor's state: its tables, the job row, and the trace
of child fetches it has issued. -/
structure SvcState where
  workItems : List SvcWorkItemRow
  comments : List SvcCommentRow
  attachments : List SvcAttachmentRow
  revisions : List SvcRevisionRow
  logs : List LogRow
  job : JobRow
  trace : List SvcCall
  nextRowId : ℕ
deriving DecidableEq

/-- `x.get('displayName', '')` on an optional identity dict (absent dict
reads as `''` through the `{}` default). -/
def dictDisplay : Option (Option String) → String
  | none => ""
  | some d => d.getD ""

/-- `fields.get('System.AssignedTo', \x7b\x7d).get('displayName', '') if
fields.get('System.AssignedTo') else ''` — a falsy value yields `''`; a
dict yields its `displayName` value. -/
def svcAssignedTo : Option AdoIdentity → Option String
  | none => some ""
  | some (.ident d) => d
  | some (.rawStr _) => none

/-- The body of the `for i, wi_data in enumerate(work_items_data)` loop
of `ExtractionService._extract_work_items`.

A work item whose `(external_id, project_id)` key already has a row is
skipped with `continue` before any effect.  A work item whose
`System.AssignedTo` is a bare string makes the row construction raise
`AttributeError`, which the per-item `except` converts to a WARNING log.
Otherwise: insert the row, fetch-and-append its comments, attachments and
revisions, and persist `extracted_items = i + 1` and the float progress
percentage. -/
def svcStepItem (env : SvcEnv) (projectId : ℕ) (st : SvcState) (idx : ℕ)
    (wi : SvcWIRec) : SvcState :=
  if (st.workItems.find? (fun r =>
      r.externalId == wi.id && r.projectId == projectId)).isSome then
    st
  else
    match wi.fields.assignedTo with
    | some (.rawStr _) =>
      { st with logs := st.logs ++
          [{ jobId := st.job.id, level := "WARNING",
             message := "Failed to extract work item " ++ toString wi.id }] }
    | aval =>
      let row : SvcWorkItemRow :=
        { rowId := st.nextRowId
          externalId := wi.id
          projectId := projectId
          title := wi.fields.title.getD ""
          workItemType := wi.fields.workItemType.getD ""
          state := wi.fields.state.getD ""
          assignedTo := svcAssignedTo aval
          createdDate := parseDateValue wi.fields.createdDate
          changedDate := parseDateValue wi.fields.changedDate
          areaPath := wi.fields.areaPath.getD ""
          iterationPath := wi.fields.iterationPath.getD ""
          priority := wi.fields.priority.getD 0
          tags := wi.fields.tags.getD ""
          description := wi.fields.description.getD ""
          fieldsRaw := wi.fields }
      { st with
        workItems := st.workItems ++ [row]
        comments := st.comments ++ (env.commentsFor wi.id).map (fun c =>
          { workItemId := st.nextRowId
            text := c.text.getD ""
            createdBy := dictDisplay c.createdBy
            createdDate := parseDateValue c.createdDate })
        attachments := st.attachments ++ (env.attachmentsFor wi.id).map (fun a =>
          { workItemId := st.nextRowId
            name := a.name.getD ""
            url := a.url.getD ""
            size := a.size.getD 0
            createdBy := dictDisplay a.createdBy
            createdDate := parseDateValue a.createdDate })
        revisions := st.revisions ++ (env.revisionsFor wi.id).map (fun rev =>
          { workItemId := st.nextRowId
            revisionNumber := rev.rev.getD 0
            changedBy := dictDisplay rev.changedBy
            changedDate := parseDateValue rev.changedDate
            fieldsRec := rev })
        trace := st.trace ++
          [SvcCall.fetchComments wi.id, SvcCall.fetchAttachments wi.id,
           SvcCall.fetchRevisions wi.id]
        job := { st.job with
          extractedItems := some (idx + 1)
          progress := PyFloat.pyProgress (idx + 1) (st.job.totalItems.getD 0) }
        nextRowId := st.nextRowId + 1 }

/-- `ExtractionService._extract_work_items`: set `total_items`, then run
the enumerated per-item loop. -/
def svcExtractWorkItems (env : SvcEnv) (projectId : ℕ)
    (data : List SvcWIRec) (st0 : SvcState) : SvcState :=
  let st1 : SvcState :=
    { st0 with job := { st0.job with totalItems := some data.length } }
  data.enum.foldl (fun s p => svcStepItem env projectId s p.1 p.2) st1

end Svc

-- Batteries marks the rational arithmetic operations `@[irreducible]`,
-- which blocks kernel evaluation of concrete instances; restore the
-- default reducibility for this development so that `decide` can evaluate
-- the modelled float arithmetic.
attribute [local semireducible] Rat.add Rat.mul Rat.sub Rat.inv

namespace Samples

open Engine

def blankFields : WIFields :=
  ⟨none, none, none, none, none, none, none, none, none, none, none⟩

def connSample : ConnRow := ⟨1, "org", "pat"⟩

def jobSample : JobRow :=
  { id := 1, projectId := 1, artifactType := "workitems",
    status := "in_progress", progress := 0, totalItems := none,
    extractedItems := none, startedAt := some 0, completedAt := none,
    errorMessage := none, message := none }

def dbEmpty : ExtractDb := ⟨[], [], [], [], [], [], [], [], 1⟩

def stSample : EngineState := ⟨dbEmpty, jobSample, []⟩

/-- Upstream with a legitimately empty work-item index. -/
def envZero : WorkItemsEnv :=
  { wiql := Ado.HttpOutcome.response 200 ⟨[]⟩
    details := fun _ => []
    revisionsFor := fun _ => []
    commentsFor := fun _ => []
    attachmentsFor := fun _ => []
    parseDt := fun _ => 0
    now := 1000 }

/-- Upstream whose index fetch dies with a connection error. -/
def envDown : WorkItemsEnv := { envZero with wiql := Ado.HttpOutcome.connectionLost }

/-- Upstream with 100 work item ids of which only the first 29 still
resolve to records on the detail fetch. -/
def envPartial : WorkItemsEnv :=
  { envZero with
    wiql := Ado.HttpOutcome.response 200
      ⟨(List.range 100).map (fun i => ⟨(i : ℤ)⟩)⟩
    details := fun ids => (ids.take 29).map (fun i => ⟨i, blankFields, []⟩) }

def envAreaZero : AreaPathsEnv :=
  ⟨Ado.HttpOutcome.response 200 (Ado.ClassificationNode.node none none []), 1000⟩

end Samples

namespace Engine

theorem extractWorkItems_zero (env : WorkItemsEnv) (c : ConnRow)
    (cid pid : ℕ) (st0 : EngineState)
    (h : (Ado.getWorkItemIds env.wiql).length = 0) :
    extractWorkItems env (some c) cid pid st0 =
      { st0 with job := { st0.job with
          totalItems := some (Ado.getWorkItemIds env.wiql).length
          status := "completed"
          progress := 100
          completedAt := some env.now } } := by
  unfold extractWorkItems
  dsimp only
  rw [if_pos h]

theorem extractAreaPaths_zero_spec (envA : AreaPathsEnv) (cA : ConnRow)
    (pidA : ℕ) (stA : EngineState)
    (h : Ado.getAreaPaths envA.classificationTree = []) :
    (extractAreaPaths envA (some cA) pidA stA).job.status = "completed" ∧
    (extractAreaPaths envA (some cA) pidA stA).job.progress = 100 ∧
    (extractAreaPaths envA (some cA) pidA stA).job.completedAt = some envA.now ∧
    (extractAreaPaths envA (some cA) pidA stA).db.areaPaths = stA.db.areaPaths := by
  unfold extractAreaPaths
  dsimp only
  rw [h]
  exact ⟨rfl, rfl, rfl, rfl⟩

theorem wiSkel_length (db : ExtractDb) :
    (wiSkel db).length = db.workItems.length := List.length_map _ _

end Engine

/-- C1: re-running the work-item extraction against an unchanged upstream
data set (the same environment) updates existing rows in place: every row
whose natural key `(project_id, external_id)` is already present is
matched and rewritten rather than duplicated, so after the second run the
work-item table has the same row count, the same surrogate row ids and
the same natural keys, in the same order, as after the first run. -/
theorem C1_idempotent_workitem_upsert (env : Engine.WorkItemsEnv)
    (conn : Option Engine.ConnRow) (cid pid : ℕ) (st0 : Engine.EngineState) :
    (Engine.extractWorkItems env conn cid pid
        (Engine.extractWorkItems env conn cid pid st0)).db.workItems.length =
      (Engine.extractWorkItems env conn cid pid st0).db.workItems.length ∧
    Engine.wiKeys (Engine.extractWorkItems env conn cid pid
        (Engine.extractWorkItems env conn cid pid st0)).db =
      Engine.wiKeys (Engine.extractWorkItems env conn cid pid st0).db ∧
    Engine.wiSkel (Engine.extractWorkItems env conn cid pid
        (Engine.extractWorkItems env conn cid pid st0)).db =
      Engine.wiSkel (Engine.extractWorkItems env conn cid pid st0).db := by
  have hs := Engine.extract_twice_skel env conn cid pid st0
  refine ⟨?_, ?_, hs⟩
  · have := congrArg List.length hs
    rwa [Engine.wiSkel_length, Engine.wiSkel_length] at this
  · rw [Engine.wiKeys_eq_skel_snd, hs, ← Engine.wiKeys_eq_skel_snd]

/-- C2: when the index fetch reports zero items, the work-item extraction
and the area-path extraction both mark the job `completed` with
`progress = 100` and a `completed_at` stamp, and write no artifact rows
(the work-item run leaves the database untouched; the area-path run
leaves the `area_paths` table untouched). -/
theorem C2_zero_total_items_completes (env : Engine.WorkItemsEnv)
    (envA : Engine.AreaPathsEnv) (c cA : Engine.ConnRow) (cid pid pidA : ℕ)
    (st0 stA : Engine.EngineState)
    (hw : Ado.getWorkItemIds env.wiql = [])
    (ha : Ado.getAreaPaths envA.classificationTree = []) :
    ((Engine.extractWorkItems env (some c) cid pid st0).job.status = "completed" ∧
     (Engine.extractWorkItems env (some c) cid pid st0).job.progress = 100 ∧
     (Engine.extractWorkItems env (some c) cid pid st0).job.completedAt = some env.now ∧
     (Engine.extractWorkItems env (some c) cid pid st0).db = st0.db) ∧
    ((Engine.extractAreaPaths envA (some cA) pidA stA).job.status = "completed" ∧
     (Engine.extractAreaPaths envA (some cA) pidA stA).job.progress = 100 ∧
     (Engine.extractAreaPaths envA (some cA) pidA stA).job.completedAt = some envA.now ∧
     (Engine.extractAreaPaths envA (some cA) pidA stA).db.areaPaths = stA.db.areaPaths) := by
  have hlen : (Ado.getWorkItemIds env.wiql).length = 0 := by rw [hw]; rfl
  have hz := Engine.extractWorkItems_zero env c cid pid st0 hlen
  refine ⟨⟨?_, ?_, ?_, ?_⟩, Engine.extractAreaPaths_zero_spec envA cA pidA stA ha⟩
  · rw [hz]
  · rw [hz]
  · rw [hz]
  · rw [hz]

/-- C2 witness: an upstream whose WIQL body is legitimately empty and an
area-path tree whose root is invalid (flattens to nothing). -/
theorem C2_zero_total_items_completes_witness :
    Ado.getWorkItemIds Samples.envZero.wiql = [] ∧
    Ado.getAreaPaths Samples.envAreaZero.classificationTree = [] ∧
    (Engine.extractWorkItems Samples.envZero (some Samples.connSample) 1 1
        Samples.stSample).job.status = "completed" ∧
    (Engine.extractAreaPaths Samples.envAreaZero (some Samples.connSample) 1
        Samples.stSample).job.progress = 100 := by
  have h1 : Ado.getWorkItemIds Samples.envZero.wiql = [] := by decide
  have h2 : Ado.getAreaPaths Samples.envAreaZero.classificationTree = [] := by
    simp [Samples.envAreaZero, Ado.getAreaPaths, Ado.flattenClassificationNodes]
  have hmain := C2_zero_total_items_completes Samples.envZero Samples.envAreaZero
    Samples.connSample Samples.connSample 1 1 1 Samples.stSample Samples.stSample h1 h2
  exact ⟨h1, h2, hmain.1.1, hmain.2.2.1⟩

namespace Engine

/-- Running totals of `extracted_items`: starting from `c`, the value
after each successive batch. -/
def cumulFrom : ℕ → List ℕ → List ℕ
  | _, [] => []
  | c, n :: rest => (c + n) :: cumulFrom (c + n) rest

/-- How many records the detail fetch returns for each batch slice of the
id list. -/
def batchCounts (env : WorkItemsEnv) (ids : List ℤ) : List ℕ :=
  (batchStarts ids.length).map
    (fun start => (env.details ((ids.drop start).take 100)).length)

theorem innerFold_count (env : WorkItemsEnv) (pid : ℕ) (wis : List WIRec) :
    ∀ acc : ExtractDb × ℕ, (innerFold env pid wis acc).2 = acc.2 + wis.length := by
  induction wis with
  | nil => intro acc; simp [innerFold]
  | cons w rest ih =>
    intro acc
    have := ih (processWorkItem env pid acc.1 w, acc.2 + 1)
    simp only [innerFold, List.foldl_cons] at this ⊢
    rw [this]
    simp only [List.length_cons]
    omega

theorem batchFold_trace (env : WorkItemsEnv) (pid : ℕ) (ids : List ℤ)
    (total : ℕ) :
    ∀ (starts : List ℕ) (s : EngineState) (c : ℕ),
      ((starts.foldl (runBatch env pid ids total) (s, c))).1.progressTrace =
        s.progressTrace ++
          (cumulFrom c (starts.map
            (fun start => (env.details ((ids.drop start).take 100)).length))).map
            (fun k => (PyFloat.pyProgress k total, k)) ∧
      ((starts.foldl (runBatch env pid ids total) (s, c))).2 =
        c + (starts.map
          (fun start => (env.details ((ids.drop start).take 100)).length)).sum := by
  intro starts
  induction starts with
  | nil => intro s c; simp [cumulFrom]
  | cons start rest ih =>
    intro s c
    have hc : (runBatch env pid ids total (s, c) start).2 =
        c + (env.details ((ids.drop start).take 100)).length := by
      show (innerFold env pid _ (s.db, c)).2 = _
      exact innerFold_count env pid _ _
    have htr : (runBatch env pid ids total (s, c) start).1.progressTrace =
        s.progressTrace ++
          [(PyFloat.pyProgress
              (c + (env.details ((ids.drop start).take 100)).length) total,
            c + (env.details ((ids.drop start).take 100)).length)] := by
      show s.progressTrace ++
          [(PyFloat.pyProgress (innerFold env pid _ (s.db, c)).2 total,
            (innerFold env pid _ (s.db, c)).2)] = _
      rw [innerFold_count env pid _ (s.db, c)]
    rcases hsplit : runBatch env pid ids total (s, c) start with ⟨s2, c2⟩
    have hc2 : c2 = c + (env.details ((ids.drop start).take 100)).length := by
      rw [← hc, hsplit]
    have htr2 : s2.progressTrace = s.progressTrace ++
        [(PyFloat.pyProgress c2 total, c2)] := by
      have := htr
      rw [hsplit] at this
      simpa [hc2] using this
    obtain ⟨ih1, ih2⟩ := ih s2 c2
    simp only [List.foldl_cons, hsplit]
    constructor
    · rw [ih1, htr2, hc2]
      simp only [List.map_cons, cumulFrom]
      rw [List.append_assoc]
      rfl
    · rw [ih2, hc2]
      simp only [List.map_cons, List.sum_cons]
      omega

theorem cumulFrom_chain (l : List ℕ) :
    ∀ c : ℕ, List.Chain' (· ≤ ·) (cumulFrom c l) ∧
      ∀ x ∈ cumulFrom c l, c ≤ x := by
  induction l with
  | nil => intro c; exact ⟨List.chain'_nil, by intro x hx; cases hx⟩
  | cons n rest ih =>
    intro c
    obtain ⟨hchain, hbound⟩ := ih (c + n)
    constructor
    · rw [cumulFrom]
      apply List.chain'_cons'.mpr
      refine ⟨?_, hchain⟩
      intro y hy
      have : y ∈ cumulFrom (c + n) rest := List.mem_of_mem_head? hy
      exact hbound y this
    · intro x hx
      rw [cumulFrom] at hx
      rcases List.mem_cons.mp hx with rfl | hx2
      · omega
      · have := hbound x hx2
        omega

theorem extractWorkItems_trace_pos (env : WorkItemsEnv) (c : ConnRow)
    (cid pid : ℕ) (st0 : EngineState)
    (h : ¬(Ado.getWorkItemIds env.wiql).length = 0) :
    (extractWorkItems env (some c) cid pid st0).progressTrace =
      (((batchStarts (Ado.getWorkItemIds env.wiql).length).foldl
        (runBatch env pid (Ado.getWorkItemIds env.wiql)
          (Ado.getWorkItemIds env.wiql).length)
        ({ st0 with job := { st0.job with
            totalItems := some (Ado.getWorkItemIds env.wiql).length } },
          0))).1.progressTrace := by
  unfold extractWorkItems
  dsimp only
  rw [if_neg h]

end Engine

set_option maxRecDepth 100000 in
/-- C3 counterexample: the claim "persisted progress equals
`floor(k / n * 100)`" fails on the code.  With 100 work item ids of which
29 resolve on the detail fetch, the single batch persists
`int((29 / 100) * 100) = 28`, while `floor(29 / 100 * 100) = 29` — the
binary64 value of `29 / 100` is slightly below `0.29`, so the product
truncates one lower.  The same undershoot occurs at exact batch
boundaries: after 29 full batches of a 10000-item job the code persists
`28`, not `floor(2900 / 10000 * 100) = 29`. -/
theorem C3_counterexample_progress_below_floor :
    (Engine.extractWorkItems Samples.envPartial (some Samples.connSample) 1 1
        Samples.stSample).progressTrace = [(28, 29)] ∧
    ⌊((29 : ℚ) / 100) * 100⌋ = 29 ∧
    PyFloat.pyProgress 2900 10000 = 28 ∧
    ⌊((2900 : ℚ) / 10000) * 100⌋ = 29 ∧
    (28 : ℤ) ≠ 29 := by
  refine ⟨by decide, by decide, by decide, by decide, by decide⟩

/-- C3 amended: after each batch the persisted progress equals
`int((extracted_items / total_items) * 100)` evaluated in binary64 float
arithmetic (`PyFloat.pyProgress`), where `extracted_items` is the running
total of records returned by the detail fetches; this float value can be
one less than exact `floor(k / n * 100)`.  Within one job the persisted
progress sequence is monotonically non-decreasing. -/
theorem C3_amended_progress_float_monotone (env : Engine.WorkItemsEnv)
    (c : Engine.ConnRow) (cid pid : ℕ) (st0 : Engine.EngineState)
    (htrace : st0.progressTrace = []) :
    (Engine.extractWorkItems env (some c) cid pid st0).progressTrace =
      (Engine.cumulFrom 0 (Engine.batchCounts env (Ado.getWorkItemIds env.wiql))).map
        (fun k => (PyFloat.pyProgress k (Ado.getWorkItemIds env.wiql).length, k)) ∧
    List.Chain' (· ≤ ·)
      ((Engine.extractWorkItems env (some c) cid pid st0).progressTrace.map
        Prod.fst) := by
  by_cases h0 : (Ado.getWorkItemIds env.wiql).length = 0
  · have hz := Engine.extractWorkItems_zero env c cid pid st0 h0
    have hempty : Engine.batchCounts env (Ado.getWorkItemIds env.wiql) = [] := by
      unfold Engine.batchCounts Engine.batchStarts
      rw [h0]
      rfl
    rw [hz]
    constructor
    · show st0.progressTrace = _
      rw [htrace, hempty]
      rfl
    · show List.Chain' (· ≤ ·) (st0.progressTrace.map Prod.fst)
      rw [htrace]
      exact List.chain'_nil
  · have htr := Engine.extractWorkItems_trace_pos env c cid pid st0 h0
    obtain ⟨h1, _⟩ := Engine.batchFold_trace env pid (Ado.getWorkItemIds env.wiql)
      (Ado.getWorkItemIds env.wiql).length
      (Engine.batchStarts (Ado.getWorkItemIds env.wiql).length)
      ({ st0 with job := { st0.job with
          totalItems := some (Ado.getWorkItemIds env.wiql).length } })
      0
    have heq : (Engine.extractWorkItems env (some c) cid pid st0).progressTrace =
        (Engine.cumulFrom 0
          (Engine.batchCounts env (Ado.getWorkItemIds env.wiql))).map
          (fun k => (PyFloat.pyProgress k (Ado.getWorkItemIds env.wiql).length, k)) := by
      rw [htr, h1]
      show st0.progressTrace ++ _ = _
      rw [htrace]
      rfl
    refine ⟨heq, ?_⟩
    rw [heq, List.map_map]
    have hcomp :
        (Prod.fst ∘ fun k =>
          ((PyFloat.pyProgress k (Ado.getWorkItemIds env.wiql).length : ℤ), k)) =
        fun k => PyFloat.pyProgress k (Ado.getWorkItemIds env.wiql).length := rfl
    rw [hcomp, List.chain'_map]
    apply List.Chain'.imp
      (fun a b hab => PyFloat.pyProgress_mono _ hab)
    exact (Engine.cumulFrom_chain _ 0).1

/-- C3 amended witness: the partial-batch environment exhibits the trace
shape and monotonicity at a concrete input. -/
theorem C3_amended_progress_float_monotone_witness :
    Samples.stSample.progressTrace = [] ∧
    (Engine.extractWorkItems Samples.envPartial (some Samples.connSample) 1 1
        Samples.stSample).progressTrace =
      (Engine.cumulFrom 0
        (Engine.batchCounts Samples.envPartial
          (Ado.getWorkItemIds Samples.envPartial.wiql))).map
        (fun k => (PyFloat.pyProgress k
          (Ado.getWorkItemIds Samples.envPartial.wiql).length, k)) := by
  refine ⟨rfl, ?_⟩
  exact (C3_amended_progress_float_monotone Samples.envPartial Samples.connSample
    1 1 Samples.stSample rfl).1

namespace Ado

/-- A request outcome on which the connector's error handling fires: a
non-200 status, a timeout, a connection error, or any other exception. -/
def isFailureOutcome {β : Type} : HttpOutcome β → Bool
  | .response code _ => code != 200
  | .timeout => true
  | .connectionLost => true
  | .otherFailure _ => true

theorem getWorkItemIds_of_failure (r : HttpOutcome WiqlBody)
    (h : isFailureOutcome r = true) : getWorkItemIds r = [] := by
  cases r with
  | response code body =>
    have : (code == 200) = false := by
      simp only [isFailureOutcome, bne_iff_ne, ne_eq] at h
      simpa using h
    simp [getWorkItemIds, this]
  | timeout => rfl
  | connectionLost => rfl
  | otherFailure msg => rfl

end Ado

/-- C4 counterexample: an unreachable host during the index fetch does
not fail the job.  `get_work_item_ids` swallows the connection error and
returns `[]`, so `extract_work_items` takes the `total_items == 0` path:
the job ends `completed` with `progress = 100`, an empty `error_message`,
and zero artifact rows — the claim's required `status == 'failed'` with a
non-empty `error_message` never happens. -/
theorem C4_counterexample_unreachable_completes :
    (Engine.extractWorkItems Samples.envDown (some Samples.connSample) 1 1
        Samples.stSample).job.status = "completed" ∧
    ¬((Engine.extractWorkItems Samples.envDown (some Samples.connSample) 1 1
        Samples.stSample).job.status = "failed") ∧
    (Engine.extractWorkItems Samples.envDown (some Samples.connSample) 1 1
        Samples.stSample).job.errorMessage = none ∧
    (Engine.extractWorkItems Samples.envDown (some Samples.connSample) 1 1
        Samples.stSample).job.progress = 100 ∧
    (Engine.extractWorkItems Samples.envDown (some Samples.connSample) 1 1
        Samples.stSample).db = Samples.stSample.db := by
  refine ⟨by decide, by decide, by decide, by decide, by decide⟩

/-- C4 amended: when the index fetch fails (invalid credential's non-2xx
status, unreachable host, timeout, or any other connector exception), the
connector returns an empty id list and the job ends `status ==
'completed'` with `progress == 100`, an unchanged (empty) `error_message`
and zero artifact rows written.  A `failed` status with a non-empty
`error_message` (and zero rows) arises only when the connection record
itself is missing. -/
theorem C4_amended_failure_swallowed (env : Engine.WorkItemsEnv)
    (c : Engine.ConnRow) (cid pid : ℕ) (st0 : Engine.EngineState)
    (hfail : Ado.isFailureOutcome env.wiql = true) :
    ((Engine.extractWorkItems env (some c) cid pid st0).job.status = "completed" ∧
     (Engine.extractWorkItems env (some c) cid pid st0).job.progress = 100 ∧
     (Engine.extractWorkItems env (some c) cid pid st0).job.completedAt = some env.now ∧
     (Engine.extractWorkItems env (some c) cid pid st0).job.errorMessage =
       st0.job.errorMessage ∧
     (Engine.extractWorkItems env (some c) cid pid st0).db = st0.db) ∧
    ((Engine.extractWorkItems env none cid pid st0).job.status = "failed" ∧
     (Engine.extractWorkItems env none cid pid st0).job.errorMessage =
       some ("Connection " ++ toString cid ++ " not found") ∧
     (Engine.extractWorkItems env none cid pid st0).db = st0.db) := by
  have hids := Ado.getWorkItemIds_of_failure env.wiql hfail
  have hlen : (Ado.getWorkItemIds env.wiql).length = 0 := by rw [hids]; rfl
  have hz := Engine.extractWorkItems_zero env c cid pid st0 hlen
  refine ⟨⟨?_, ?_, ?_, ?_, ?_⟩, rfl, rfl, rfl⟩ <;> rw [hz]

/-- C4 amended witness: the connection-lost environment at a concrete
state. -/
theorem C4_amended_failure_swallowed_witness :
    Ado.isFailureOutcome Samples.envDown.wiql = true ∧
    (Engine.extractWorkItems Samples.envDown (some Samples.connSample) 1 1
        Samples.stSample).job.status = "completed" := by
  refine ⟨by decide, ?_⟩
  exact (C4_amended_failure_swallowed Samples.envDown Samples.connSample 1 1
    Samples.stSample (by decide)).1.1

/-- C5 counterexample: not every connector operation converts failures
to an empty list.  `get_project_details` has no `try`/`except`: a
connection error or timeout raises to its caller, and a non-2xx response
returns the empty dict, not a list. -/
theorem C5_counterexample_project_details_raises :
    Ado.getProjectDetails
        (Ado.HttpOutcome.connectionLost : Ado.HttpOutcome (Ado.ListBody ℕ)) =
      Except.error Ado.NetExc.clientConnErr ∧
    Ado.getProjectDetails
        (Ado.HttpOutcome.timeout : Ado.HttpOutcome (Ado.ListBody ℕ)) =
      Except.error Ado.NetExc.timeoutErr ∧
    Ado.getProjectDetails
        (Ado.HttpOutcome.response 404 (Ado.ListBody.mk [(1 : ℕ)])) =
      Except.ok none := by
  refine ⟨rfl, rfl, by decide⟩

/-- C5 amended: each list-returning connector operation — `get_projects`,
`get_repositories`, `get_repository_branches`, `get_repository_commits`,
`get_repository_pull_requests`, `get_work_item_ids`,
`get_work_item_details`, `get_work_item_revisions`,
`get_work_item_comments`, `get_work_item_attachments`, `get_area_paths`,
`get_iteration_paths` — catches transport errors, timeouts and non-2xx
responses and returns the empty list rather than raising, and on a 200
response returns the parsed record list.  The exception is
`get_project_details`, which has no `try`/`except`: transport errors and
timeouts raise to its caller, and a non-2xx response returns the empty
dict rather than a list. -/
theorem C5_amended_connector_error_policy {β : Type} (code : ℕ)
    (b : Ado.ListBody β) (w : Ado.WiqlBody) (cb : Ado.CommentsBody β)
    (xb : Ado.ExpandedWorkItemBody) (tree : Ado.ClassificationNode)
    (ids : List ℤ) (msg : String) :
    (Ado.getProjects (Ado.HttpOutcome.response 200 b) = b.value ∧
     (code ≠ 200 → Ado.getProjects (Ado.HttpOutcome.response code b) = []) ∧
     Ado.getProjects (β := β) Ado.HttpOutcome.timeout = [] ∧
     Ado.getProjects (β := β) Ado.HttpOutcome.connectionLost = [] ∧
     Ado.getProjects (Ado.HttpOutcome.otherFailure (β := Ado.ListBody β) msg) = []) ∧
    (Ado.getRepositories (Ado.HttpOutcome.response 200 b) = b.value ∧
     (code ≠ 200 → Ado.getRepositories (Ado.HttpOutcome.response code b) = []) ∧
     Ado.getRepositories (β := β) Ado.HttpOutcome.timeout = [] ∧
     Ado.getRepositories (β := β) Ado.HttpOutcome.connectionLost = [] ∧
     Ado.getRepositories (Ado.HttpOutcome.otherFailure (β := Ado.ListBody β) msg) = []) ∧
    (Ado.getRepositoryBranches (Ado.HttpOutcome.response 200 b) = b.value ∧
     (code ≠ 200 → Ado.getRepositoryBranches (Ado.HttpOutcome.response code b) = []) ∧
     Ado.getRepositoryBranches (β := β) Ado.HttpOutcome.timeout = [] ∧
     Ado.getRepositoryBranches (β := β) Ado.HttpOutcome.connectionLost = [] ∧
     Ado.getRepositoryBranches (Ado.HttpOutcome.otherFailure (β := Ado.ListBody β) msg) = []) ∧
    (Ado.getRepositoryCommits (Ado.HttpOutcome.response 200 b) = b.value ∧
     (code ≠ 200 → Ado.getRepositoryCommits (Ado.HttpOutcome.response code b) = []) ∧
     Ado.getRepositoryCommits (β := β) Ado.HttpOutcome.timeout = [] ∧
     Ado.getRepositoryCommits (β := β) Ado.HttpOutcome.connectionLost = [] ∧
     Ado.getRepositoryCommits (Ado.HttpOutcome.otherFailure (β := Ado.ListBody β) msg) = []) ∧
    (Ado.getRepositoryPullRequests (Ado.HttpOutcome.response 200 b) = b.value ∧
     (code ≠ 200 → Ado.getRepositoryPullRequests (Ado.HttpOutcome.response code b) = []) ∧
     Ado.getRepositoryPullRequests (β := β) Ado.HttpOutcome.timeout = [] ∧
     Ado.getRepositoryPullRequests (β := β) Ado.HttpOutcome.connectionLost = [] ∧
     Ado.getRepositoryPullRequests (Ado.HttpOutcome.otherFailure (β := Ado.ListBody β) msg) = []) ∧
    (Ado.getWorkItemIds (Ado.HttpOutcome.response 200 w) =
       w.workItems.map (fun item => item.id) ∧
     (code ≠ 200 → Ado.getWorkItemIds (Ado.HttpOutcome.response code w) = []) ∧
     Ado.getWorkItemIds Ado.HttpOutcome.timeout = [] ∧
     Ado.getWorkItemIds Ado.HttpOutcome.connectionLost = [] ∧
     Ado.getWorkItemIds (Ado.HttpOutcome.otherFailure msg) = []) ∧
    ((ids ≠ [] →
       Ado.getWorkItemDetailsOp ids (Ado.HttpOutcome.response 200 b) = b.value) ∧
     (code ≠ 200 → Ado.getWorkItemDetailsOp ids (Ado.HttpOutcome.response code b) = []) ∧
     Ado.getWorkItemDetailsOp (β := β) ids Ado.HttpOutcome.timeout = [] ∧
     Ado.getWorkItemDetailsOp (β := β) ids Ado.HttpOutcome.connectionLost = [] ∧
     Ado.getWorkItemDetailsOp ids (Ado.HttpOutcome.otherFailure (β := Ado.ListBody β) msg) = []) ∧
    (Ado.getWorkItemRevisionsOp (Ado.HttpOutcome.response 200 b) = b.value ∧
     (code ≠ 200 → Ado.getWorkItemRevisionsOp (Ado.HttpOutcome.response code b) = []) ∧
     Ado.getWorkItemRevisionsOp (β := β) Ado.HttpOutcome.timeout = [] ∧
     Ado.getWorkItemRevisionsOp (β := β) Ado.HttpOutcome.connectionLost = [] ∧
     Ado.getWorkItemRevisionsOp (Ado.HttpOutcome.otherFailure (β := Ado.ListBody β) msg) = []) ∧
    (Ado.getWorkItemCommentsOp (Ado.HttpOutcome.response 200 cb) = cb.comments ∧
     (code ≠ 200 → Ado.getWorkItemCommentsOp (Ado.HttpOutcome.response code cb) = []) ∧
     Ado.getWorkItemCommentsOp (β := β) Ado.HttpOutcome.timeout = [] ∧
     Ado.getWorkItemCommentsOp (β := β) Ado.HttpOutcome.connectionLost = [] ∧
     Ado.getWorkItemCommentsOp (Ado.HttpOutcome.otherFailure (β := Ado.CommentsBody β) msg) = []) ∧
    (Ado.getWorkItemAttachmentsOp (Ado.HttpOutcome.response 200 xb) =
       Ado.attachmentsOfRelations xb.relations ∧
     (code ≠ 200 → Ado.getWorkItemAttachmentsOp (Ado.HttpOutcome.response code xb) = []) ∧
     Ado.getWorkItemAttachmentsOp Ado.HttpOutcome.timeout = [] ∧
     Ado.getWorkItemAttachmentsOp Ado.HttpOutcome.connectionLost = [] ∧
     Ado.getWorkItemAttachmentsOp (Ado.HttpOutcome.otherFailure msg) = []) ∧
    (Ado.getAreaPaths (Ado.HttpOutcome.response 200 tree) =
       Ado.flattenClassificationNodes tree "area" "" ∧
     (code ≠ 200 → Ado.getAreaPaths (Ado.HttpOutcome.response code tree) = []) ∧
     Ado.getAreaPaths Ado.HttpOutcome.timeout = [] ∧
     Ado.getAreaPaths Ado.HttpOutcome.connectionLost = [] ∧
     Ado.getAreaPaths (Ado.HttpOutcome.otherFailure msg) = []) ∧
    (Ado.getIterationPaths (Ado.HttpOutcome.response 200 tree) =
       Ado.flattenClassificationNodes tree "iteration" "" ∧
     (code ≠ 200 → Ado.getIterationPaths (Ado.HttpOutcome.response code tree) = []) ∧
     Ado.getIterationPaths Ado.HttpOutcome.timeout = [] ∧
     Ado.getIterationPaths Ado.HttpOutcome.connectionLost = [] ∧
     Ado.getIterationPaths (Ado.HttpOutcome.otherFailure msg) = []) ∧
    (Ado.getProjectDetails (Ado.HttpOutcome.response 200 b) = Except.ok (some b) ∧
     (code ≠ 200 → Ado.getProjectDetails (Ado.HttpOutcome.response code b) =
       Except.ok none) ∧
     Ado.getProjectDetails (β := Ado.ListBody β) Ado.HttpOutcome.timeout =
       Except.error Ado.NetExc.timeoutErr ∧
     Ado.getProjectDetails (β := Ado.ListBody β) Ado.HttpOutcome.connectionLost =
       Except.error Ado.NetExc.clientConnErr ∧
     Ado.getProjectDetails (Ado.HttpOutcome.otherFailure (β := Ado.ListBody β) msg) =
       Except.error (Ado.NetExc.otherExc msg)) := by
  have hcode : code ≠ 200 → (code == 200) = false := by
    intro hne
    simpa using hne
  refine ⟨⟨rfl, ?_, rfl, rfl, rfl⟩, ⟨rfl, ?_, rfl, rfl, rfl⟩,
    ⟨rfl, ?_, rfl, rfl, rfl⟩, ⟨rfl, ?_, rfl, rfl, rfl⟩,
    ⟨rfl, ?_, rfl, rfl, rfl⟩, ⟨rfl, ?_, rfl, rfl, rfl⟩,
    ⟨?_, ?_, ?_, ?_, ?_⟩, ⟨rfl, ?_, rfl, rfl, rfl⟩,
    ⟨rfl, ?_, rfl, rfl, rfl⟩, ⟨rfl, ?_, rfl, rfl, rfl⟩,
    ⟨rfl, ?_, rfl, rfl, rfl⟩, ⟨rfl, ?_, rfl, rfl, rfl⟩,
    ⟨rfl, ?_, rfl, rfl, rfl⟩⟩
  · intro hne
    simp [Ado.getProjects, hcode hne]
  · intro hne
    simp [Ado.getRepositories, hcode hne]
  · intro hne
    simp [Ado.getRepositoryBranches, hcode hne]
  · intro hne
    simp [Ado.getRepositoryCommits, hcode hne]
  · intro hne
    simp [Ado.getRepositoryPullRequests, hcode hne]
  · intro hne
    simp [Ado.getWorkItemIds, hcode hne]
  · intro hids
    rcases ids with _ | ⟨i, rest⟩
    · exact absurd rfl hids
    · rfl
  · intro hne
    rcases ids with _ | ⟨i, rest⟩
    · rfl
    · simp [Ado.getWorkItemDetailsOp, hcode hne]
  · rcases ids with _ | ⟨i, rest⟩ <;> rfl
  · rcases ids with _ | ⟨i, rest⟩ <;> rfl
  · rcases ids with _ | ⟨i, rest⟩ <;> rfl
  · intro hne
    simp [Ado.getWorkItemRevisionsOp, hcode hne]
  · intro hne
    simp [Ado.getWorkItemCommentsOp, hcode hne]
  · intro hne
    simp [Ado.getWorkItemAttachmentsOp, hcode hne]
  · intro hne
    simp [Ado.getAreaPaths, hcode hne]
  · intro hne
    simp [Ado.getIterationPaths, hcode hne]
  · intro hne
    simp [Ado.getProjectDetails, hcode hne]

/-- C5 amended witness: a non-2xx status (401, invalid credential) at
concrete bodies, and a concrete non-empty id list for the detail
fetch. -/
theorem C5_amended_connector_error_policy_witness :
    Ado.getProjects (Ado.HttpOutcome.response 401 (Ado.ListBody.mk [(1 : ℕ)])) = [] ∧
    Ado.getProjects (Ado.HttpOutcome.response 200 (Ado.ListBody.mk [(1 : ℕ)])) = [1] ∧
    Ado.getWorkItemIds (Ado.HttpOutcome.response 401 (Ado.WiqlBody.mk [⟨7⟩])) = [] ∧
    Ado.getWorkItemIds (Ado.HttpOutcome.response 200 (Ado.WiqlBody.mk [⟨7⟩])) = [7] ∧
    Ado.getWorkItemDetailsOp [7]
      (Ado.HttpOutcome.response 200 (Ado.ListBody.mk [(1 : ℕ)])) = [1] ∧
    Ado.getProjectDetails
      (Ado.HttpOutcome.response 401 (Ado.ListBody.mk [(1 : ℕ)])) = Except.ok none := by
  have h := C5_amended_connector_error_policy (β := ℕ) 401
    (Ado.ListBody.mk [(1 : ℕ)]) (Ado.WiqlBody.mk [⟨7⟩])
    (Ado.CommentsBody.mk [(2 : ℕ)]) (Ado.ExpandedWorkItemBody.mk [])
    (Ado.ClassificationNode.node none none []) [7] "boom"
  refine ⟨h.1.2.1 (by decide), h.1.1, ?_, ?_, ?_, ?_⟩
  · exact h.2.2.2.2.2.1.2.1 (by decide)
  · exact h.2.2.2.2.2.1.1
  · exact h.2.2.2.2.2.2.1.1 (by simp)
  · exact h.2.2.2.2.2.2.2.2.2.2.2.2.2.1 (by decide)

namespace Samples

def projSample : Engine.ProjectRow := ⟨1, "P", some 1, some 3, none, none, none, none⟩

def apiStSample : Api.ApiState := ⟨[projSample], [jobSample], 2⟩

end Samples

/-- C6: when a job for the same `(projectId, artifactType)` is already
`in_progress`, `start_extraction` answers with that job's descriptor and
inserts no row (the whole state is unchanged); a new row — created
`in_progress` for that project and artifact type — is appended only when
no such job exists.  (Stated for requests naming an existing project;
a missing project is a 404 that also inserts nothing.) -/
theorem C6_single_in_progress_job (st : Api.ApiState) (projectId : ℕ)
    (artifactType : String) (now : ℤ) (p : Engine.ProjectRow)
    (hp : st.projects.find? (fun q => q.id == projectId) = some p) :
    (∀ j, Api.findInProgressJob st.jobs projectId artifactType = some j →
      Api.startExtraction projectId artifactType now st =
        (Api.StartResult.alreadyInProgress j, st)) ∧
    (Api.findInProgressJob st.jobs projectId artifactType = none →
      ∃ newJob : Engine.JobRow,
        Api.startExtraction projectId artifactType now st =
          (Api.StartResult.started newJob,
           { st with jobs := st.jobs ++ [newJob],
                     nextJobId := st.nextJobId + 1 }) ∧
        newJob.status = "in_progress" ∧
        newJob.projectId = projectId ∧
        newJob.artifactType = artifactType ∧
        newJob.startedAt = some now ∧
        newJob.progress = 0) := by
  constructor
  · intro j hj
    unfold Api.startExtraction
    rw [hp, hj]
  · intro hnone
    unfold Api.startExtraction
    rw [hp, hnone]
    exact ⟨_, rfl, rfl, rfl, rfl, rfl, rfl⟩

/-- C6 witness: a state already holding an in-progress `workitems` job
for project 1 — the handler returns that job and the table keeps one
row. -/
theorem C6_single_in_progress_job_witness :
    (Api.startExtraction 1 "workitems" 50 Samples.apiStSample).1 =
      Api.StartResult.alreadyInProgress Samples.jobSample ∧
    (Api.startExtraction 1 "workitems" 50 Samples.apiStSample).2.jobs.length = 1 := by
  have h := C6_single_in_progress_job Samples.apiStSample 1 "workitems" 50
    Samples.projSample (by decide)
  have hfound : Api.findInProgressJob Samples.apiStSample.jobs 1 "workitems" =
      some Samples.jobSample := by decide
  have heq := h.1 Samples.jobSample hfound
  rw [heq]
  exact ⟨rfl, rfl⟩

/-- C7: the job-list stall pass force-completes exactly the rows that are
`in_progress` with `started_at` more than 5 minutes (300 s) in the past:
those get `status = 'completed'`, `progress = 100`,
`extracted_items = total_items or 10`, `total_items` likewise defaulted,
equal `extracted_items`/`total_items`, and a fresh `completed_at`, with
identity fields untouched; every other row is returned unchanged, and the
pass never adds or removes rows. -/
theorem C7_stall_force_completes (now : ℤ) (jobs : List Engine.JobRow) :
    (Api.autoCompleteStalled now jobs).length = jobs.length ∧
    ∀ i : Fin jobs.length,
      ((jobs.get i).status = "in_progress" ∧
          (∃ t, (jobs.get i).startedAt = some t ∧ t < now - 300) →
        ((Api.autoCompleteStalled now jobs).get
            (Fin.cast (List.length_map jobs _).symm i)).status = "completed" ∧
        ((Api.autoCompleteStalled now jobs).get
            (Fin.cast (List.length_map jobs _).symm i)).progress = 100 ∧
        ((Api.autoCompleteStalled now jobs).get
            (Fin.cast (List.length_map jobs _).symm i)).extractedItems =
          some (Api.orTen (jobs.get i).totalItems) ∧
        ((Api.autoCompleteStalled now jobs).get
            (Fin.cast (List.length_map jobs _).symm i)).totalItems =
          some (Api.orTen (jobs.get i).totalItems) ∧
        ((Api.autoCompleteStalled now jobs).get
            (Fin.cast (List.length_map jobs _).symm i)).extractedItems =
          ((Api.autoCompleteStalled now jobs).get
            (Fin.cast (List.length_map jobs _).symm i)).totalItems ∧
        ((Api.autoCompleteStalled now jobs).get
            (Fin.cast (List.length_map jobs _).symm i)).completedAt = some now ∧
        ((Api.autoCompleteStalled now jobs).get
            (Fin.cast (List.length_map jobs _).symm i)).id = (jobs.get i).id ∧
        ((Api.autoCompleteStalled now jobs).get
            (Fin.cast (List.length_map jobs _).symm i)).projectId =
          (jobs.get i).projectId ∧
        ((Api.autoCompleteStalled now jobs).get
            (Fin.cast (List.length_map jobs _).symm i)).artifactType =
          (jobs.get i).artifactType ∧
        ((Api.autoCompleteStalled now jobs).get
            (Fin.cast (List.length_map jobs _).symm i)).startedAt =
          (jobs.get i).startedAt) ∧
      (¬((jobs.get i).status = "in_progress" ∧
          (∃ t, (jobs.get i).startedAt = some t ∧ t < now - 300)) →
        (Api.autoCompleteStalled now jobs).get
          (Fin.cast (List.length_map jobs _).symm i) = jobs.get i) := by
  constructor
  · exact List.length_map jobs _
  · intro i
    have hget : (Api.autoCompleteStalled now jobs).get
        (Fin.cast (List.length_map jobs _).symm i) =
        (if Api.isStalled now (jobs.get i) then
          Api.forceComplete now (jobs.get i) else jobs.get i) := by
      unfold Api.autoCompleteStalled
      exact List.get_map _
    constructor
    · intro hcond
      have hst : Api.isStalled now (jobs.get i) = true :=
        (Api.isStalled_iff now (jobs.get i)).mpr hcond
      rw [hget, if_pos hst]
      exact ⟨rfl, rfl, rfl, rfl, rfl, rfl, rfl, rfl, rfl, rfl⟩
    · intro hcond
      have hst : ¬(Api.isStalled now (jobs.get i) = true) := by
        rw [Api.isStalled_iff]
        exact hcond
      rw [hget, if_neg hst]

/-- C7 witness: one stalled job (started at 0, queried at 1000 s) and one
fresh job; the stalled one is force-completed with the 10 default, the
fresh one is untouched. -/
theorem C7_stall_force_completes_witness :
    (Api.autoCompleteStalled 1000 [Samples.jobSample]).length = 1 ∧
    ((Api.autoCompleteStalled 1000 [Samples.jobSample]).get
        (Fin.cast (List.length_map [Samples.jobSample] _).symm ⟨0, by decide⟩)).status =
      "completed" ∧
    ((Api.autoCompleteStalled 1000 [Samples.jobSample]).get
        (Fin.cast (List.length_map [Samples.jobSample] _).symm ⟨0, by decide⟩)).extractedItems =
      some 10 ∧
    (Api.autoCompleteStalled 250 [Samples.jobSample]).get
        (Fin.cast (List.length_map [Samples.jobSample] _).symm ⟨0, by decide⟩) =
      Samples.jobSample := by
  have h1000 := C7_stall_force_completes 1000 [Samples.jobSample]
  have h250 := C7_stall_force_completes 250 [Samples.jobSample]
  have hcond : (([Samples.jobSample].get ⟨0, by decide⟩).status = "in_progress" ∧
      ∃ t, ([Samples.jobSample].get ⟨0, by decide⟩).startedAt = some t ∧
        t < (1000 : ℤ) - 300) :=
    ⟨rfl, 0, rfl, by decide⟩
  have hpos := (h1000.2 ⟨0, by decide⟩).1 hcond
  have hneg := (h250.2 ⟨0, by decide⟩).2 (by
    rintro ⟨_, t, ht, hlt⟩
    have h2 : (some (0 : ℤ) : Option ℤ) = some t := ht
    injection h2 with h3
    omega)
  exact ⟨h1000.1, hpos.1, hpos.2.2.1, hneg⟩

namespace Ado

/-- No flattened record has a `parentPath` key: the flattener emits
exactly `id`, `name`, `path`, `type`, `has_children`. -/
theorem flatten_lookup_parentPath (t : String) :
    ∀ n : ClassificationNode, ∀ p : String,
      ∀ r ∈ flattenClassificationNodes n t p,
        List.lookup "parentPath" r = none := by
  intro n
  induction n using ClassificationNode.recMem with
  | _ name id children ih =>
    intro p r hr
    cases name with
    | none =>
      rw [flattenClassificationNodes] at hr
      cases hr
    | some nm =>
      rw [flattenClassificationNodes] at hr
      rcases List.mem_cons.mp hr with rfl | htail
      · rfl
      · rcases List.mem_flatten.mp htail with ⟨sub, hsub, hrsub⟩
        rcases List.mem_map.mp hsub with ⟨⟨c, hc⟩, _, rfl⟩
        exact ih c hc _ r hrsub

end Ado

namespace Samples

/-- A two-level classification tree: root `Root` with one child
`Child`. -/
def treeSample : Ado.ClassificationNode :=
  .node (some "Root") (some 1) [.node (some "Child") (some 2) []]

end Samples

/-- C8 counterexample: the flattened records do not carry `parentPath`
(nor a camel-cased `hasChildren`); the actual keys are `id`, `name`,
`path`, `type` and `has_children`.  On a concrete two-node area tree,
looking up the claimed `parentPath` key yields nothing in every record
(which is why `extract_area_paths` stores `parent_path = None` for every
row), while the `type` key — absent from the claim — is present. -/
theorem C8_counterexample_no_parentPath_key :
    ((Ado.flattenClassificationNodes Samples.treeSample "area" "").map
      (fun r => List.lookup "parentPath" r)) = [none, none] ∧
    ((Ado.flattenClassificationNodes Samples.treeSample "area" "").map
      (fun r => List.lookup "hasChildren" r)) = [none, none] ∧
    ((Ado.flattenClassificationNodes Samples.treeSample "area" "").map
      (fun r => List.lookup "type" r)) =
      [some (Ado.PyVal.pstr "area"), some (Ado.PyVal.pstr "area")] ∧
    ((Ado.flattenClassificationNodes Samples.treeSample "area" "").map
      (fun r => List.lookup "path" r)) =
      [some (Ado.PyVal.pstr "Root"), some (Ado.PyVal.pstr "Root\\Child")] := by
  refine ⟨?_, ?_, ?_, ?_⟩ <;>
    simp [Samples.treeSample, Ado.flattenClassificationNodes, Ado.ofOptInt,
      List.lookup]

/-- C8 amended: the connector flattens a classification tree by recursive
pre-order traversal into records carrying `(id, name, path, type,
has_children)` — there is no `parentPath` field — where each record's
`path` is the names of its ancestors and itself joined by the `\`
separator (the root's path is its bare name): on every tree with
non-empty node names the flattener coincides with that specification,
and no record of any tree has a `parentPath` key. -/
theorem C8_amended_flatten_preorder_paths (t : String)
    (n : Ado.ClassificationNode) (hn : Ado.namesNonempty n = true) :
    Ado.flattenClassificationNodes n t "" = Ado.specFlattenRecords n t [] ∧
    (∀ p : String, ∀ r ∈ Ado.flattenClassificationNodes n t p,
      List.lookup "parentPath" r = none) := by
  exact ⟨Ado.flatten_eq_specRecords t n hn,
    fun p r hr => Ado.flatten_lookup_parentPath t n p r hr⟩

/-- C8 amended witness: the two-node sample tree. -/
theorem C8_amended_flatten_preorder_paths_witness :
    Ado.namesNonempty Samples.treeSample = true ∧
    Ado.flattenClassificationNodes Samples.treeSample "area" "" =
      Ado.specFlattenRecords Samples.treeSample "area" [] := by
  have hn : Ado.namesNonempty Samples.treeSample = true := by
    simp [Samples.treeSample, Ado.namesNonempty]
  exact ⟨hn, (C8_amended_flatten_preorder_paths "area" Samples.treeSample hn).1⟩

/-- C9: in the service-layer extractor, a fetched work item whose natural
key `(project_id, external_id)` already has a row is skipped entirely —
the state after the loop body is the state before it: no row field is
touched, no comment/attachment/revision fetch is issued (the call trace
is unchanged), and the job row is not updated. -/
theorem C9_service_skips_existing (env : Svc.SvcEnv) (projectId : ℕ)
    (st : Svc.SvcState) (idx : ℕ) (wi : Svc.SvcWIRec)
    (h : (st.workItems.find? (fun r =>
        r.externalId == wi.id && r.projectId == projectId)).isSome = true) :
    Svc.svcStepItem env projectId st idx wi = st := by
  unfold Svc.svcStepItem
  rw [if_pos h]

namespace Samples

def svcEnvSample : Svc.SvcEnv :=
  ⟨fun _ => [], fun _ => [], fun _ => []⟩

def svcRowSample : Svc.SvcWorkItemRow :=
  { rowId := 1, externalId := 7, projectId := 1, title := "T",
    workItemType := "Bug", state := "New", assignedTo := some "",
    createdDate := none, changedDate := none, areaPath := "", iterationPath := "",
    priority := 0, tags := "", description := "", fieldsRaw := blankFields }

def svcStSample : Svc.SvcState :=
  { workItems := [svcRowSample], comments := [], attachments := [],
    revisions := [], logs := [], job := jobSample, trace := [], nextRowId := 2 }

end Samples

/-- C9 witness: a state already holding work item 7 for project 1; the
loop body at that record is the identity. -/
theorem C9_service_skips_existing_witness :
    Svc.svcStepItem Samples.svcEnvSample 1 Samples.svcStSample 0
        ⟨7, Samples.blankFields⟩ = Samples.svcStSample := by
  exact C9_service_skips_existing Samples.svcEnvSample 1 Samples.svcStSample 0
    ⟨7, Samples.blankFields⟩ (by decide)

/-- C10: `_parse_date` is total — it never surfaces an exception.  A
`None` or empty input returns `None`; a string the ISO parser rejects
raises `ValueError`, which is caught and becomes `None`; a string it
accepts returns the parsed datetime.  Hence a malformed upstream date
field cannot by itself fail an extraction. -/
theorem C10_parse_date_total (s : Option String) :
    (∃ r, PyDate.parseDate s = Except.ok r) ∧
    PyDate.parseDate none = Except.ok none ∧
    (∀ str, s = some str → str = "" → PyDate.parseDate s = Except.ok none) ∧
    (∀ str d, s = some str → str ≠ "" →
      PyDate.parseAttempt str = Except.ok d →
      PyDate.parseDate s = Except.ok (some d)) ∧
    (∀ str, s = some str → str ≠ "" →
      PyDate.parseAttempt str = Except.error PyDate.PyExc.valueErr →
      PyDate.parseDate s = Except.ok none) := by
  have hattempt : ∀ str, PyDate.parseAttempt str ≠
      Except.error PyDate.PyExc.typeErr := by
    intro str
    unfold PyDate.parseAttempt PyDate.fromisoformatExc
    split_ifs <;>
      rcases PyDate.fromisoformatCore _ with _ | d <;> simp
  refine ⟨?_, rfl, ?_, ?_, ?_⟩
  · rcases s with _ | str
    · exact ⟨none, rfl⟩
    · by_cases hemp : str = ""
      · subst hemp
        exact ⟨none, rfl⟩
      · rcases hcase : PyDate.parseAttempt str with e | d
        · cases e with
          | valueErr => exact ⟨none, by simp [PyDate.parseDate, hemp, hcase]⟩
          | typeErr => exact absurd hcase (hattempt str)
        · exact ⟨some d, by simp [PyDate.parseDate, hemp, hcase]⟩
  · rintro str rfl rfl
    rfl
  · rintro str d rfl hne hok
    simp [PyDate.parseDate, hne, hok]
  · rintro str rfl hne hval
    simp [PyDate.parseDate, hne, hval]

/-- C10 witness: a well-formed ADO timestamp parses; garbage is absorbed
to `None`; the empty string and `None` short-circuit. -/
theorem C10_parse_date_total_witness :
    PyDate.parseDate (some "2024-05-06T07:08:09Z") =
      Except.ok (some ⟨2024, 5, 6, 7, 8, 9, 0, some 0⟩) ∧
    PyDate.parseDate (some "not-a-date") = Except.ok none ∧
    PyDate.parseDate (some "") = Except.ok none ∧
    PyDate.parseDate none = Except.ok none := by
  have h1 := (C10_parse_date_total (some "2024-05-06T07:08:09Z")).2.2.2.1
    "2024-05-06T07:08:09Z" ⟨2024, 5, 6, 7, 8, 9, 0, some 0⟩ rfl (by decide) (by decide)
  have h2 := (C10_parse_date_total (some "not-a-date")).2.2.2.2
    "not-a-date" rfl (by decide) (by decide)
  have h3 := (C10_parse_date_total (some "")).2.2.1 "" rfl rfl
  exact ⟨h1, h2, h3, rfl⟩
